import Mathlib

/-!
Readiness-gated HTTP server (package web, file web/web.go)

A shallow embedding of `web.Server`: the dispatcher `ServeHTTP`, the handler
swap `serveWith`, the launcher `Start` and `ServeWithIndex`.

Conventions of the embedding.

* A Go `error` value is `Option String`; `none` is the nil error.
* An `http.Handler` interface value is `Option Handler`; `none` is the nil
  interface, and calling the method of the interface is applying the field
  `Handler.ServeHTTP`.
* The `http.ResponseWriter` handed to a handler is a record of what has been
  sent so far: the header map, whether the status line went out, the status
  and the body bytes.  The three methods `Header().Set`, `WriteHeader` and
  `Write` follow the contract documented by net/http.
* `sync.RWMutex` is the pair (number of read holders, write holder flag).  An
  acquisition that cannot proceed is reported as `none`.
* Each operation returns the new server state together with the list of the
  lock and dispatch events it performed, in program order.
-/

namespace Web

/-! ## Data model -/

/-- Go error interface value: `none` is nil. -/
abbrev Error := Option String

/-- The fields of `config.Config` that web.go reads. -/
structure Config where
  HealthCheckURI : String
  FullCertFilename : String
  PrivCertFilename : String
  deriving DecidableEq, Repr

/-- The part `url.URL` that the dispatcher reads. -/
structure URL where
  Path : String
  deriving DecidableEq, Repr

/-- An `http.Request`: method, URL, headers and body. -/
structure Request where
  Method : String
  URL : URL
  Header : List (String × String)
  Body : String
  deriving DecidableEq, Repr

/-- State of an `http.ResponseWriter`: the header map, whether the status
line has been written, the status code and the body written so far. -/
structure ResponseWriter where
  header : List (String × String)
  wroteHeader : Bool
  status : Nat
  body : String
  deriving DecidableEq, Repr

/-- The writer net/http hands to a handler for a new request. -/
def ResponseWriter.fresh : ResponseWriter :=
  { header := [], wroteHeader := false, status := 0, body := "" }

/-- Lookup in the header map, as `Header().Get`. -/
def ResponseWriter.Get (w : ResponseWriter) (key : String) : Option String :=
  (w.header.find? (fun kv => kv.1 == key)).map (fun kv => kv.2)

/-- Replace the values of a key, as `Header().Set`. -/
def ResponseWriter.Set (w : ResponseWriter) (key value : String) : ResponseWriter :=
  { w with header := (key, value) :: w.header.filter (fun kv => kv.1 != key) }

/-- Send the status line, as `WriteHeader`: only the first call has an effect. -/
def ResponseWriter.WriteHeader (w : ResponseWriter) (code : Nat) : ResponseWriter :=
  if w.wroteHeader then w else { w with wroteHeader := true, status := code }

/-- Write body bytes, as `Write`: if the status line has not been written yet
the call first does `WriteHeader(http.StatusOK)`. -/
def ResponseWriter.Write (w : ResponseWriter) (data : String) : ResponseWriter :=
  let w1 := w.WriteHeader 200
  { w1 with body := w1.body ++ data }

/-- The call `fmt.Fprintln(w, text)`: the operand followed by a newline. -/
def Fprintln (w : ResponseWriter) (text : String) : ResponseWriter :=
  w.Write (text ++ "\n")

/-- The constant `http.StatusServiceUnavailable`. -/
def StatusServiceUnavailable : Nat := 503

/-- The call `http.Error(w, msg, code)` of net/http: it sets the content type
to plain text, sets the nosniff option, writes the status line with `code`
and prints `msg` with `fmt.Fprintln`. -/
def httpError (w : ResponseWriter) (msg : String) (code : Nat) : ResponseWriter :=
  let w1 := w.Set "Content-Type" "text/plain; charset=utf-8"
  let w2 := w1.Set "X-Content-Type-Options" "nosniff"
  let w3 := w2.WriteHeader code
  Fprintln w3 msg

/-- What a call of a handler leaves behind: the writer state, and the panic
value if the handler panicked instead of returning. -/
structure HandlerResult where
  w : ResponseWriter
  panic : Option String

/-- An `http.Handler`: a value with a `ServeHTTP` method. -/
structure Handler where
  ServeHTTP : ResponseWriter → Request → HandlerResult

/-- State of a `sync.RWMutex`. -/
structure RWMutex where
  readers : Nat
  writer : Bool
  deriving DecidableEq, Repr

/-- The zero value of `sync.RWMutex`: unlocked. -/
def RWMutex.zero : RWMutex := { readers := 0, writer := false }

/-- Acquire for reading; `none` when a writer holds the lock (the caller waits). -/
def RWMutex.RLock (m : RWMutex) : Option RWMutex :=
  if m.writer then none else some { m with readers := m.readers + 1 }

/-- Release one read hold. -/
def RWMutex.RUnlock (m : RWMutex) : RWMutex :=
  { m with readers := m.readers - 1 }

/-- Acquire for writing; `none` when any hold exists (the caller waits). -/
def RWMutex.Lock (m : RWMutex) : Option RWMutex :=
  if m.writer || m.readers != 0 then none else some { m with writer := true }

/-- Release the write hold. -/
def RWMutex.Unlock (m : RWMutex) : RWMutex :=
  { m with writer := false }

/-- A channel of errors, identified by the allocation that made it. -/
structure Chan where
  id : Nat
  deriving DecidableEq, Repr

/-- The struct `Server`. -/
structure Server where
  cfg : Config
  dev : Bool
  ch : Chan
  mux : Option Handler
  lck : RWMutex

/-- Lock and dispatch events performed by the operations, in program order. -/
inductive Event where
  | RLock
  | RUnlock
  | Lock
  | Unlock
  | store (m : Option Handler)
  | call (h : Handler) (w : ResponseWriter) (r : Request)
  | httpError (msg : String) (code : Nat)
  | recv (ch : Chan)

/-- How a call ended. -/
inductive Exit where
  | returned
  | panicked (v : String)
  | blocked
  deriving DecidableEq, Repr

/-- Result of one `ServeHTTP` call: server state, writer state, the events
performed and how the call ended. -/
structure Served where
  server : Server
  w : ResponseWriter
  trace : List Event
  exit : Exit

/-! ## The readiness gate -/

/-- The fixed health check payload. -/
def healthPayload : String := "👍"

/-- The fixed message of the not-ready response. -/
def notReadyMessage : String := "Gitgrep is not ready."

/-- Exit of a call whose body ended with the given panic state. -/
def Exit.ofPanic : Option String → Exit
  | none => Exit.returned
  | some v => Exit.panicked v

/-- The method `(*Server).ServeHTTP` (web.go lines 28-43).  The deferred
`RUnlock` runs after the body on every way out of it, a panic of the
forwarded handler included. -/
def Server.ServeHTTP (s : Server) (w : ResponseWriter) (r : Request) : Served :=
  if r.URL.Path = s.cfg.HealthCheckURI then
    { server := s, w := Fprintln w healthPayload, trace := [], exit := Exit.returned }
  else
    match s.lck.RLock with
    | none => { server := s, w := w, trace := [], exit := Exit.blocked }
    | some l1 =>
      let s1 : Server := { s with lck := l1 }
      match s1.mux with
      | some h =>
        let res := h.ServeHTTP w r
        { server := { s1 with lck := s1.lck.RUnlock }, w := res.w,
          trace := [Event.RLock, Event.call h w r, Event.RUnlock],
          exit := Exit.ofPanic res.panic }
      | none =>
        { server := { s1 with lck := s1.lck.RUnlock },
          w := httpError w notReadyMessage StatusServiceUnavailable,
          trace := [Event.RLock, Event.httpError notReadyMessage StatusServiceUnavailable,
            Event.RUnlock],
          exit := Exit.returned }

/-- Result of a `serveWith` call. -/
structure Installed where
  server : Server
  trace : List Event
  exit : Exit

/-- The method `(*Server).serveWith` (web.go lines 45-49). -/
def Server.serveWith (s : Server) (m : Option Handler) : Installed :=
  match s.lck.Lock with
  | none => { server := s, trace := [], exit := Exit.blocked }
  | some l1 =>
    let s1 : Server := { s with lck := l1 }
    let s2 : Server := { s1 with mux := m }
    { server := { s2 with lck := s2.lck.Unlock },
      trace := [Event.Lock, Event.store m, Event.Unlock], exit := Exit.returned }

/-- Whether the event is a read acquisition. -/
def Event.isRLock : Event → Bool
  | Event.RLock => true
  | _ => false

/-- Whether the event is a read release. -/
def Event.isRUnlock : Event → Bool
  | Event.RUnlock => true
  | _ => false

/-- Whether the event is a write acquisition or a write release. -/
def Event.isWriteLock : Event → Bool
  | Event.Lock => true
  | Event.Unlock => true
  | _ => false

/-- Whether the event assigns the field mux. -/
def Event.isStore : Event → Bool
  | Event.store _ => true
  | _ => false

/-- Whether the event is a call of a handler. -/
def Event.isCall : Event → Bool
  | Event.call _ _ _ => true
  | _ => false

/-- Whether the event is the call that writes the not-ready response. -/
def Event.isHttpError : Event → Bool
  | Event.httpError _ _ => true
  | _ => false

/-- Whether the event is a receive from a channel. -/
def Event.isRecv : Event → Bool
  | Event.recv _ => true
  | _ => false

/-! ## The listener launcher -/

/-- Allocation state of the program: the next unused object identity. -/
structure Runtime where
  next : Nat
  deriving DecidableEq, Repr

/-- A pointer to a `Server`. -/
structure ServerPtr where
  addr : Nat
  deriving DecidableEq, Repr

/-- The two listen calls of net/http, with their arguments. -/
inductive ListenCall where
  | ListenAndServeTLS (addr certFile keyFile : String) (handler : ServerPtr)
  | ListenAndServe (addr : String) (handler : ServerPtr)
  deriving DecidableEq, Repr

/-- What the background goroutine of `Start` does, in program order. -/
inductive GoEvent where
  | listen (c : ListenCall)
  | log (msg : String)
  | send (ch : Chan) (v : Error)
  deriving DecidableEq, Repr

/-- Text of a non-nil error, as printed by the verb %v. -/
def errorText : Error → String
  | none => "<nil>"
  | some e => e

/-- Body of the goroutine spawned by `Start` (web.go lines 64-78).  The
argument `listen` gives the error with which the listen call returns. -/
def Start.goroutine (cfg : Config) (addr : String) (s : ServerPtr) (ch : Chan)
    (listen : ListenCall → Error) : List GoEvent :=
  if cfg.FullCertFilename ≠ "" ∧ cfg.PrivCertFilename ≠ "" then
    let c := ListenCall.ListenAndServeTLS addr cfg.FullCertFilename cfg.PrivCertFilename s
    let err := listen c
    [GoEvent.listen c]
      ++ (if err ≠ none then
            [GoEvent.log ("ListenAndServeTLS " ++ addr ++ ": " ++ errorText err)]
          else [])
      ++ [GoEvent.send ch err]
  else
    let c := ListenCall.ListenAndServe addr s
    let err := listen c
    [GoEvent.listen c]
      ++ (if err ≠ none then
            [GoEvent.log ("ListenAndServe " ++ addr ++ ": " ++ errorText err)]
          else [])
      ++ [GoEvent.send ch err]

/-- Result of `Start`: the allocation state, the returned pointer, the
object it points to, and the goroutine that was spawned. -/
structure Started where
  rt : Runtime
  s : ServerPtr
  server : Server
  goroutine : (ListenCall → Error) → List GoEvent

/-- The function `Start` (web.go lines 55-81): make the channel, allocate the
server with no handler and an unlocked mutex, spawn the listener. -/
def Start (rt : Runtime) (cfg : Config) (addr : String) (dev : Bool) : Started :=
  let ch : Chan := { id := rt.next }
  let s : ServerPtr := { addr := rt.next + 1 }
  { rt := { next := rt.next + 2 },
    s := s,
    server := { cfg := cfg, dev := dev, ch := ch, mux := none, lck := RWMutex.zero },
    goroutine := Start.goroutine cfg addr s ch }

/-- The listen calls among the events. -/
def listenCalls : List GoEvent → List ListenCall
  | [] => []
  | GoEvent.listen c :: es => c :: listenCalls es
  | _ :: es => listenCalls es

/-- The channel sends among the events. -/
def sends : List GoEvent → List (Chan × Error)
  | [] => []
  | GoEvent.send ch v :: es => (ch, v) :: sends es
  | _ :: es => sends es

/-! ## Installing the search handler -/

/-- An `http.ServeMux`: the registered patterns with their handlers. -/
structure ServeMux where
  entries : List (String × Handler)

/-- The call `http.NewServeMux()`. -/
def NewServeMux : ServeMux := { entries := [] }

/-- The call `m.Handle(pattern, h)`. -/
def ServeMux.Handle (m : ServeMux) (pattern : String) (h : Handler) : ServeMux :=
  { entries := m.entries ++ [(pattern, h)] }

/-- The functions that `ServeWithIndex` calls and whose code is elsewhere:
`ui.Content`, `api.Setup`, the routing method of `http.ServeMux` and
`jwtCookieAuth`.  They are parameters of the embedding. -/
structure Deps (Idx : Type) where
  uiContent : Bool → Config → Except String Handler
  apiSetup : ServeMux → Idx → ServeMux
  muxServeHTTP : ServeMux → ResponseWriter → Request → HandlerResult
  jwtCookieAuth : Server → Server

/-- The handler interface value made from a mux pointer. -/
def Deps.asHandler {Idx : Type} (d : Deps Idx) (m : ServeMux) : Handler :=
  { ServeHTTP := d.muxServeHTTP m }

/-- What `ServeWithIndex` returns: a value, or whatever is received from a
channel on which the call waits. -/
inductive Ret where
  | value (e : Error)
  | received (ch : Chan)
  | never
  deriving DecidableEq, Repr

/-- Result of `ServeWithIndex`: the receiver object when the call reached its
last statement, the events performed, and what the call returns. -/
structure Indexed where
  server : Server
  trace : List Event
  ret : Ret

/-- The method `(*Server).ServeWithIndex` (web.go lines 85-99). -/
def Server.ServeWithIndex {Idx : Type} (d : Deps Idx) (s : Server) (idx : Idx) : Indexed :=
  match d.uiContent s.dev s.cfg with
  | Except.error e => { server := s, trace := [], ret := Ret.value (some e) }
  | Except.ok h =>
    let m := NewServeMux
    let m := m.Handle "/" h
    let m := d.apiSetup m idx
    let i := s.serveWith (some (d.asHandler m))
    match i.exit with
    | Exit.returned =>
      let s2 := d.jwtCookieAuth i.server
      { server := i.server, trace := i.trace ++ [Event.recv s2.ch], ret := Ret.received s2.ch }
    | _ => { server := i.server, trace := i.trace, ret := Ret.never }

/-! ## Sequences of operations on one server -/

/-- An operation applied to a server by its owner or by the listener.  A call
of `ServeWithIndex` comes with the functions it calls at that moment, since
what `ui.Content` returns belongs to the call. -/
inductive Op : Type 1 where
  | ServeHTTP (w : ResponseWriter) (r : Request)
  | serveWith (m : Option Handler)
  | ServeWithIndex {Idx : Type} (d : Deps Idx) (idx : Idx)

/-- State of the server after one operation. -/
def Server.apply (s : Server) : Op → Server
  | Op.ServeHTTP w r => (s.ServeHTTP w r).server
  | Op.serveWith m => (s.serveWith m).server
  | Op.ServeWithIndex d idx => (s.ServeWithIndex d idx).server

/-- State of the server after a sequence of operations. -/
def Server.run (s : Server) (ops : List Op) : Server :=
  ops.foldl Server.apply s

/-- The installed handler before the first operation and after each one. -/
def Server.muxHistory (s : Server) : List Op → List (Option Handler)
  | [] => [s.mux]
  | op :: ops => s.mux :: (s.apply op).muxHistory ops

/-- The mux that `ServeWithIndex` builds from the UI content h and the index
(web.go lines 91-93), as a handler interface value. -/
def Deps.indexHandler {Idx : Type} (d : Deps Idx) (h : Handler) (idx : Idx) : Handler :=
  d.asHandler (d.apiSetup (NewServeMux.Handle "/" h) idx)

/-- Whether the operation, on a server with this configuration and mode,
reaches the assignment of the field mux: every call of `serveWith`, and a
call of `ServeWithIndex` whose `ui.Content` succeeds. -/
def Op.installs (cfg : Config) (dev : Bool) : Op → Bool
  | Op.ServeHTTP _ _ => false
  | Op.serveWith _ => true
  | Op.ServeWithIndex d _ =>
    match d.uiContent dev cfg with
    | Except.ok _ => true
    | Except.error _ => false

/-! ## Concurrent requests and one install

Request goroutines run `ServeHTTP` and one goroutine runs `serveWith`, all on
the same server.  Every goroutine advances by one statement at a time and a
schedule names the goroutine that advances next.  The assignment `s.mux = m`
writes an interface value, which takes two machine words, so it is two steps:
between them the field is torn, holding neither the old nor the new value. -/

/-- Program points of a request goroutine inside `ServeHTTP`: before the path
test, before `RLock`, before the nil test, before the forwarding call, before
`http.Error`, before the deferred `RUnlock`, and after the return. -/
inductive ReaderPC where
  | start
  | atRLock
  | atCheck
  | atForward
  | atError
  | atRUnlock
  | done
  deriving DecidableEq, Repr

/-- Whether a request goroutine at this point holds the read lock. -/
def ReaderPC.holds : ReaderPC → Bool
  | ReaderPC.atCheck => true
  | ReaderPC.atForward => true
  | ReaderPC.atError => true
  | ReaderPC.atRUnlock => true
  | _ => false

/-- A request goroutine: the writer and request it was started with, its
program point, what it has written, how its body ended, whether it read the
field while torn, and whether `serveWith` had returned when it began. -/
structure Reader where
  w0 : ResponseWriter
  r : Request
  pc : ReaderPC
  w : ResponseWriter
  exit : Exit
  sawTorn : Bool
  afterInstall : Bool

/-- A request goroutine that has not begun. -/
def Reader.init (p : ResponseWriter × Request) : Reader :=
  { w0 := p.1, r := p.2, pc := ReaderPC.start, w := p.1, exit := Exit.returned,
    sawTorn := false, afterInstall := false }

/-- One statement of `ServeHTTP` (web.go lines 28-43) run by a request
goroutine; `none` when the goroutine waits or has returned. -/
def Reader.step (s : Server) (torn installed : Bool) (t : Reader) : Option (Server × Reader) :=
  match t.pc with
  | ReaderPC.start =>
    if t.r.URL.Path = s.cfg.HealthCheckURI then
      some (s, { t with pc := ReaderPC.done, w := Fprintln t.w healthPayload,
                        afterInstall := installed })
    else
      some (s, { t with pc := ReaderPC.atRLock, afterInstall := installed })
  | ReaderPC.atRLock =>
    match s.lck.RLock with
    | none => none
    | some l => some ({ s with lck := l }, { t with pc := ReaderPC.atCheck })
  | ReaderPC.atCheck =>
    if torn then some (s, { t with pc := ReaderPC.atRUnlock, sawTorn := true })
    else
      match s.mux with
      | some _ => some (s, { t with pc := ReaderPC.atForward })
      | none => some (s, { t with pc := ReaderPC.atError })
  | ReaderPC.atForward =>
    if torn then some (s, { t with pc := ReaderPC.atRUnlock, sawTorn := true })
    else
      match s.mux with
      | some h =>
        some (s, { t with pc := ReaderPC.atRUnlock, w := (h.ServeHTTP t.w t.r).w,
                          exit := Exit.ofPanic (h.ServeHTTP t.w t.r).panic })
      | none =>
        some (s, { t with pc := ReaderPC.atRUnlock,
                          exit := Exit.panicked "nil pointer dereference" })
  | ReaderPC.atError =>
    some (s, { t with pc := ReaderPC.atRUnlock,
                      w := httpError t.w notReadyMessage StatusServiceUnavailable })
  | ReaderPC.atRUnlock =>
    some ({ s with lck := s.lck.RUnlock }, { t with pc := ReaderPC.done })
  | ReaderPC.done => none

/-- Program points of the goroutine inside `serveWith`: before `Lock`, before
the assignment, between its two word writes, before the deferred `Unlock`,
and after the return. -/
inductive WriterPC where
  | atLock
  | atStore
  | midStore
  | atUnlock
  | done
  deriving DecidableEq, Repr

/-- Whether the installing goroutine at this point holds the write lock. -/
def WriterPC.holds : WriterPC → Bool
  | WriterPC.atStore => true
  | WriterPC.midStore => true
  | WriterPC.atUnlock => true
  | _ => false

/-- Whether the assignment has been completed at this point. -/
def WriterPC.stored : WriterPC → Bool
  | WriterPC.atUnlock => true
  | WriterPC.done => true
  | _ => false

/-- The server shared by the goroutines, whether its field mux is torn, the
handler being installed, and the goroutines. -/
structure Sys where
  server : Server
  torn : Bool
  m : Option Handler
  installer : WriterPC
  readers : List Reader

/-- The system before any goroutine has advanced. -/
def Sys.init (s : Server) (m : Option Handler) (reqs : List (ResponseWriter × Request)) : Sys :=
  { server := s, torn := false, m := m, installer := WriterPC.atLock,
    readers := reqs.map Reader.init }

/-- One statement of `serveWith` (web.go lines 45-49) run by the installing
goroutine; `none` when it waits or has returned. -/
def Sys.stepInstaller (σ : Sys) : Option Sys :=
  match σ.installer with
  | WriterPC.atLock =>
    match σ.server.lck.Lock with
    | none => none
    | some l => some { σ with server := { σ.server with lck := l }, installer := WriterPC.atStore }
  | WriterPC.atStore => some { σ with torn := true, installer := WriterPC.midStore }
  | WriterPC.midStore =>
    some { σ with server := { σ.server with mux := σ.m }, torn := false,
                  installer := WriterPC.atUnlock }
  | WriterPC.atUnlock =>
    some { σ with server := { σ.server with lck := σ.server.lck.Unlock },
                  installer := WriterPC.done }
  | WriterPC.done => none

/-- Names of the goroutines. -/
inductive Tid where
  | installer
  | request (i : Nat)
  deriving DecidableEq, Repr

/-- One statement of request goroutine number i. -/
def Sys.stepRequest (σ : Sys) (i : Nat) : Option Sys :=
  match σ.readers[i]? with
  | none => none
  | some t =>
    match t.step σ.server σ.torn (decide (σ.installer = WriterPC.done)) with
    | none => none
    | some (s1, t1) => some { σ with server := s1, readers := σ.readers.set i t1 }

/-- The named goroutine advances by one statement if it can; otherwise the
state is unchanged. -/
def Sys.step (σ : Sys) : Tid → Sys
  | Tid.installer => σ.stepInstaller.getD σ
  | Tid.request i => (σ.stepRequest i).getD σ

/-- The state after the goroutines advanced in the order of the schedule. -/
def Sys.run (σ : Sys) (sched : List Tid) : Sys :=
  sched.foldl Sys.step σ

/-- What a request goroutine has to show when it is done: the writer and the
way the call ended. -/
def Reader.response (t : Reader) : ResponseWriter × Exit := (t.w, t.exit)

/-- Response of the sequential `ServeHTTP` to the request of this goroutine on
the server at rest with the given handler installed. -/
def Reader.responseWith (s : Server) (x : Option Handler) (t : Reader) : ResponseWriter × Exit :=
  ((({ s with mux := x } : Server).ServeHTTP t.w0 t.r).w,
   (({ s with mux := x } : Server).ServeHTTP t.w0 t.r).exit)

/-- An upper bound on the statements a request goroutine has left. -/
def ReaderPC.remaining : ReaderPC → Nat
  | ReaderPC.start => 5
  | ReaderPC.atRLock => 4
  | ReaderPC.atCheck => 3
  | ReaderPC.atForward => 2
  | ReaderPC.atError => 2
  | ReaderPC.atRUnlock => 1
  | ReaderPC.done => 0

/-- The statements the installing goroutine has left. -/
def WriterPC.remaining : WriterPC → Nat
  | WriterPC.atLock => 4
  | WriterPC.atStore => 3
  | WriterPC.midStore => 2
  | WriterPC.atUnlock => 1
  | WriterPC.done => 0

/-- An upper bound on the statements left in the whole system. -/
def Sys.remaining (σ : Sys) : Nat :=
  σ.installer.remaining + (σ.readers.map (fun t => t.pc.remaining)).sum

/-- The goroutine has written nothing yet. -/
def Reader.Untouched (t : Reader) : Prop :=
  t.w = t.w0 ∧ t.exit = Exit.returned

/-- The response of the goroutine is the complete sequential response on the
old state or on the new state, and on the new state if the goroutine began
after the install had returned. -/
def Reader.Settled (s0 : Server) (m : Option Handler) (t : Reader) : Prop :=
  (t.response = t.responseWith s0 s0.mux ∨ t.response = t.responseWith s0 m) ∧
  (t.afterInstall = true → t.response = t.responseWith s0 m)

/-- What holds of a request goroutine at each program point, given the
initial server, the handler being installed and the current field mux. -/
def Reader.InvAt (s0 : Server) (m mux : Option Handler) (t : Reader) : ReaderPC → Prop
  | ReaderPC.start => t.Untouched ∧ t.afterInstall = false
  | ReaderPC.atRLock => t.Untouched ∧ t.r.URL.Path ≠ s0.cfg.HealthCheckURI
  | ReaderPC.atCheck => t.Untouched ∧ t.r.URL.Path ≠ s0.cfg.HealthCheckURI
  | ReaderPC.atForward =>
    t.Untouched ∧ t.r.URL.Path ≠ s0.cfg.HealthCheckURI ∧ ∃ h, mux = some h
  | ReaderPC.atError =>
    t.Untouched ∧ t.r.URL.Path ≠ s0.cfg.HealthCheckURI ∧
    (s0.mux = none ∨ m = none) ∧ (t.afterInstall = true → m = none)
  | ReaderPC.atRUnlock => t.Settled s0 m
  | ReaderPC.done => t.Settled s0 m

/-- Invariant of one request goroutine: it never read a torn field, it is
marked as begun after the install only if the install has returned, and the
condition of its program point holds. -/
def Reader.Inv (s0 : Server) (m mux : Option Handler) (installed : Bool) (t : Reader) : Prop :=
  t.sawTorn = false ∧ (t.afterInstall = true → installed = true) ∧ t.InvAt s0 m mux t.pc

/-- Invariant of the system started from the server s0 with the requests
reqs and the handler m to install: the mutex counts the goroutines that hold
it, readers and the writer exclude each other, the field is torn only
between the two word writes, it holds the old value before the store and the
new one after, and every request goroutine satisfies its invariant. -/
structure Sys.Inv (s0 : Server) (m : Option Handler) (reqs : List (ResponseWriter × Request))
    (σ : Sys) : Prop where
  cfg : σ.server.cfg = s0.cfg
  arg : σ.m = m
  count : σ.server.lck.readers = σ.readers.countP (fun t => t.pc.holds)
  wflag : σ.server.lck.writer = σ.installer.holds
  excl : σ.server.lck.writer = true → σ.server.lck.readers = 0
  torn : σ.torn = decide (σ.installer = WriterPC.midStore)
  mux : σ.server.mux = if σ.installer.stored = true then m else s0.mux
  reqs : σ.readers.map (fun t => (t.w0, t.r)) = reqs
  readers : ∀ t ∈ σ.readers,
    t.Inv s0 m σ.server.mux (decide (σ.installer = WriterPC.done))

/-! ## Concrete inputs used to exercise the theorems -/

/-- A configuration without certificate files. -/
def exampleConfig : Config :=
  { HealthCheckURI := "/healthz", FullCertFilename := "", PrivCertFilename := "" }

/-- A configuration with both certificate files. -/
def exampleTLSConfig : Config :=
  { HealthCheckURI := "/healthz", FullCertFilename := "full.pem", PrivCertFilename := "key.pem" }

/-- A configuration with only the certificate chain. -/
def exampleHalfConfig : Config :=
  { HealthCheckURI := "/healthz", FullCertFilename := "full.pem", PrivCertFilename := "" }

/-- A request for the health check path. -/
def exampleHealthRequest : Request :=
  { Method := "POST", URL := { Path := "/healthz" }, Header := [("X-Probe", "1")], Body := "ping" }

/-- A request for a search page. -/
def exampleSearchRequest : Request :=
  { Method := "GET", URL := { Path := "/search" }, Header := [], Body := "" }

/-- A handler that answers 200 with a short body. -/
def exampleHandler : Handler :=
  { ServeHTTP := fun w _ => { w := w.Write "results", panic := none } }

/-- A handler that answers 404. -/
def otherHandler : Handler :=
  { ServeHTTP := fun w _ => { w := (w.WriteHeader 404).Write "nothing", panic := none } }

/-- A handler that writes the status line and then panics. -/
def panickingHandler : Handler :=
  { ServeHTTP := fun w _ => { w := w.WriteHeader 500, panic := some "boom" } }

/-- A server at rest with no handler. -/
def exampleServer : Server :=
  { cfg := exampleConfig, dev := false, ch := { id := 0 }, mux := none, lck := RWMutex.zero }

/-- A server with a handler whose mutex is held by a writer. -/
def exampleLockedServer : Server :=
  { cfg := exampleConfig, dev := false, ch := { id := 0 }, mux := some exampleHandler,
    lck := { readers := 0, writer := true } }

/-- Dependencies whose UI content cannot be built. -/
def failingDeps : Deps Unit :=
  { uiContent := fun _ _ => Except.error "ui: asset missing",
    apiSetup := fun m _ => m,
    muxServeHTTP := fun _ w _ => { w := w, panic := none },
    jwtCookieAuth := fun s => s }

/-- Dependencies whose UI content is the example handler and whose mux sends
every request to its first entry. -/
def workingDeps : Deps Unit :=
  { uiContent := fun _ _ => Except.ok exampleHandler,
    apiSetup := fun m _ => m,
    muxServeHTTP := fun m w r =>
      match m.entries with
      | [] => { w := (w.WriteHeader 404).Write "404 page not found", panic := none }
      | e :: _ => e.2.ServeHTTP w r,
    jwtCookieAuth := fun s => s }

/-- Three search requests, each with a new writer. -/
def exampleRequests : List (ResponseWriter × Request) :=
  [(ResponseWriter.fresh, exampleSearchRequest),
   (ResponseWriter.fresh, { exampleSearchRequest with Method := "HEAD" }),
   (ResponseWriter.fresh, { exampleSearchRequest with Body := "q=lock" })]

/-- A schedule in which request 0 passes its nil test before the install and
keeps the installer waiting, request 1 begins between the two word writes of
the store and waits for the lock until the install has ended, and request 2
begins after the install has returned. -/
def exampleSchedule : List Tid :=
  [Tid.request 0, Tid.request 0, Tid.installer, Tid.request 0, Tid.request 0,
   Tid.installer, Tid.request 0, Tid.installer, Tid.installer, Tid.request 1,
   Tid.request 1, Tid.installer, Tid.request 1, Tid.installer,
   Tid.request 1, Tid.request 1, Tid.request 1, Tid.request 1, Tid.request 2,
   Tid.request 2, Tid.request 2, Tid.request 2, Tid.request 2]

/-! ## Properties of the readiness gate -/

theorem RWMutex.RUnlock_RLock (m l : RWMutex) (h : m.RLock = some l) : l.RUnlock = m := by
  unfold RWMutex.RLock at h
  split at h
  · cases h
  · cases h
    cases m
    simp [RWMutex.RUnlock]

theorem RWMutex.RLock_of_free (m : RWMutex) (h : m.writer = false) :
    m.RLock = some { m with readers := m.readers + 1 } := by
  simp [RWMutex.RLock, h]

theorem RWMutex.RLock_of_held (m : RWMutex) (h : m.writer = true) : m.RLock = none := by
  simp [RWMutex.RLock, h]

theorem Server.ServeHTTP_health (s : Server) (w : ResponseWriter) (r : Request)
    (hp : r.URL.Path = s.cfg.HealthCheckURI) :
    s.ServeHTTP w r =
      { server := s, w := Fprintln w healthPayload, trace := [], exit := Exit.returned } := by
  simp [Server.ServeHTTP, hp]

theorem Server.ServeHTTP_blocked (s : Server) (w : ResponseWriter) (r : Request)
    (hp : r.URL.Path ≠ s.cfg.HealthCheckURI) (hl : s.lck.writer = true) :
    s.ServeHTTP w r = { server := s, w := w, trace := [], exit := Exit.blocked } := by
  simp [Server.ServeHTTP, hp, RWMutex.RLock_of_held _ hl]

theorem Server.ServeHTTP_absent (s : Server) (w : ResponseWriter) (r : Request)
    (hp : r.URL.Path ≠ s.cfg.HealthCheckURI) (hl : s.lck.writer = false)
    (hm : s.mux = none) :
    s.ServeHTTP w r =
      { server := s, w := httpError w notReadyMessage StatusServiceUnavailable,
        trace := [Event.RLock, Event.httpError notReadyMessage StatusServiceUnavailable,
          Event.RUnlock],
        exit := Exit.returned } := by
  obtain ⟨cfg, dev, ch, mux, ⟨n, wr⟩⟩ := s
  simp only at hl hm hp
  subst hl hm
  simp [Server.ServeHTTP, hp, RWMutex.RLock, RWMutex.RUnlock]

theorem Server.ServeHTTP_present (s : Server) (w : ResponseWriter) (r : Request)
    (h : Handler) (hp : r.URL.Path ≠ s.cfg.HealthCheckURI) (hl : s.lck.writer = false)
    (hm : s.mux = some h) :
    s.ServeHTTP w r =
      { server := s, w := (h.ServeHTTP w r).w,
        trace := [Event.RLock, Event.call h w r, Event.RUnlock],
        exit := Exit.ofPanic (h.ServeHTTP w r).panic } := by
  obtain ⟨cfg, dev, ch, mux, ⟨n, wr⟩⟩ := s
  simp only at hl hm hp
  subst hl hm
  simp [Server.ServeHTTP, hp, RWMutex.RLock, RWMutex.RUnlock]

theorem Server.ServeHTTP_server (s : Server) (w : ResponseWriter) (r : Request) :
    (s.ServeHTTP w r).server = s := by
  by_cases hp : r.URL.Path = s.cfg.HealthCheckURI
  · rw [Server.ServeHTTP_health s w r hp]
  · cases hl : s.lck.writer
    · cases hm : s.mux with
      | none => rw [Server.ServeHTTP_absent s w r hp hl hm]
      | some h => rw [Server.ServeHTTP_present s w r h hp hl hm]
    · rw [Server.ServeHTTP_blocked s w r hp hl]

theorem Fprintln_status (w : ResponseWriter) (text : String) (hw : w.wroteHeader = false) :
    (Fprintln w text).status = 200 := by
  simp [Fprintln, ResponseWriter.Write, ResponseWriter.WriteHeader, hw]

theorem Fprintln_body (w : ResponseWriter) (text : String) :
    (Fprintln w text).body = w.body ++ (text ++ "\n") := by
  unfold Fprintln ResponseWriter.Write ResponseWriter.WriteHeader
  split <;> rfl

theorem Fprintln_header (w : ResponseWriter) (text : String) :
    (Fprintln w text).header = w.header := by
  unfold Fprintln ResponseWriter.Write ResponseWriter.WriteHeader
  split <;> rfl

theorem httpError_status (w : ResponseWriter) (msg : String) (code : Nat)
    (hw : w.wroteHeader = false) : (httpError w msg code).status = code := by
  simp [httpError, Fprintln, ResponseWriter.Write, ResponseWriter.WriteHeader,
    ResponseWriter.Set, hw]

theorem httpError_body (w : ResponseWriter) (msg : String) (code : Nat) :
    (httpError w msg code).body = w.body ++ (msg ++ "\n") := by
  unfold httpError
  simp only [Fprintln_body]
  unfold ResponseWriter.WriteHeader ResponseWriter.Set
  split <;> rfl

theorem httpError_contentType (w : ResponseWriter) (msg : String) (code : Nat) :
    (httpError w msg code).Get "Content-Type" = some "text/plain; charset=utf-8" := by
  unfold httpError ResponseWriter.Get
  simp only [Fprintln_header]
  unfold ResponseWriter.WriteHeader ResponseWriter.Set
  split <;> simp

theorem Server.run_requests (s : Server) (reqs : List (ResponseWriter × Request)) :
    s.run (reqs.map (fun p => Op.ServeHTTP p.1 p.2)) = s := by
  induction reqs with
  | nil => rfl
  | cons p ps ih =>
    simp only [Server.run, List.map_cons, List.foldl_cons, Server.apply,
      Server.ServeHTTP_server]
    exact ih

/-- C1: for every server state (handler absent or installed, mutex free or
held) and every request whose path equals the health check path, whatever the
method, headers and body, `ServeHTTP` returns without waiting, answers on a
writer whose status line is still unsent with status 200 and appends the
thumbs-up string followed by a newline, performs no lock operation and no
handler call, and leaves the server as it was. -/
theorem health_check_always_ok (s : Server) (w : ResponseWriter) (r : Request)
    (hp : r.URL.Path = s.cfg.HealthCheckURI) (hw : w.wroteHeader = false) :
    (s.ServeHTTP w r).w.status = 200 ∧
    (s.ServeHTTP w r).w.body = w.body ++ "👍\n" ∧
    (s.ServeHTTP w r).w.header = w.header ∧
    (s.ServeHTTP w r).exit = Exit.returned ∧
    (s.ServeHTTP w r).trace = [] ∧
    (s.ServeHTTP w r).server = s := by
  rw [Server.ServeHTTP_health s w r hp]
  refine ⟨Fprintln_status w _ hw, ?_, Fprintln_header w _, rfl, rfl, rfl⟩
  rw [Fprintln_body]
  rfl

/-- Witness of C1: a POST with a body to the health path of a server that has
a handler and whose mutex is held by a writer. -/
theorem health_check_always_ok_witness :
    exampleHealthRequest.URL.Path = exampleLockedServer.cfg.HealthCheckURI ∧
    ResponseWriter.fresh.wroteHeader = false ∧
    (exampleLockedServer.ServeHTTP ResponseWriter.fresh exampleHealthRequest).w.status = 200 ∧
    (exampleLockedServer.ServeHTTP ResponseWriter.fresh exampleHealthRequest).w.body
      = ResponseWriter.fresh.body ++ "👍\n" ∧
    (exampleLockedServer.ServeHTTP ResponseWriter.fresh exampleHealthRequest).trace = [] :=
  ⟨by decide, rfl,
    (health_check_always_ok exampleLockedServer ResponseWriter.fresh exampleHealthRequest
      (by decide) rfl).1,
    (health_check_always_ok exampleLockedServer ResponseWriter.fresh exampleHealthRequest
      (by decide) rfl).2.1,
    (health_check_always_ok exampleLockedServer ResponseWriter.fresh exampleHealthRequest
      (by decide) rfl).2.2.2.2.1⟩

/-- C2: on the server returned by `Start`, after any number of earlier
requests and no `serveWith`, a request whose path differs from the health
check path returns with status 503 and the writer that `http.Error` produces
from the fixed message, which does not depend on the request; the only events
are the read lock, the `http.Error` call and the read unlock, so no handler
is called. -/
theorem not_ready_before_install (rt : Runtime) (cfg : Config) (addr : String) (dev : Bool)
    (earlier : List (ResponseWriter × Request)) (w : ResponseWriter) (r : Request)
    (hp : r.URL.Path ≠ cfg.HealthCheckURI) (hw : w.wroteHeader = false) :
    ((((Start rt cfg addr dev).server.run
        (earlier.map (fun p => Op.ServeHTTP p.1 p.2))).ServeHTTP w r).w.status = 503) ∧
    ((((Start rt cfg addr dev).server.run
        (earlier.map (fun p => Op.ServeHTTP p.1 p.2))).ServeHTTP w r).w
      = httpError w "Gitgrep is not ready." 503) ∧
    ((((Start rt cfg addr dev).server.run
        (earlier.map (fun p => Op.ServeHTTP p.1 p.2))).ServeHTTP w r).exit = Exit.returned) ∧
    ((((Start rt cfg addr dev).server.run
        (earlier.map (fun p => Op.ServeHTTP p.1 p.2))).ServeHTTP w r).trace
      = [Event.RLock, Event.httpError "Gitgrep is not ready." 503, Event.RUnlock]) := by
  rw [Server.run_requests]
  rw [Server.ServeHTTP_absent (Start rt cfg addr dev).server w r hp rfl rfl]
  exact ⟨httpError_status w _ _ hw, rfl, rfl, rfl⟩

/-- Witness of C2: a search request after one earlier health probe. -/
theorem not_ready_before_install_witness :
    exampleSearchRequest.URL.Path ≠ exampleConfig.HealthCheckURI ∧
    ResponseWriter.fresh.wroteHeader = false ∧
    ((((Start { next := 0 } exampleConfig ":6080" false).server.run
        ([(ResponseWriter.fresh, exampleHealthRequest)].map
          (fun p => Op.ServeHTTP p.1 p.2))).ServeHTTP
        ResponseWriter.fresh exampleSearchRequest).w.status = 503) :=
  ⟨by decide, rfl,
    (not_ready_before_install { next := 0 } exampleConfig ":6080" false
      [(ResponseWriter.fresh, exampleHealthRequest)] ResponseWriter.fresh exampleSearchRequest
      (by decide) rfl).1⟩

theorem Server.serveWith_returned (s : Server) (m : Option Handler)
    (hret : (s.serveWith m).exit = Exit.returned) :
    (s.serveWith m).server = { s with mux := m } ∧
    (s.serveWith m).trace = [Event.Lock, Event.store m, Event.Unlock] ∧
    s.lck = RWMutex.zero := by
  obtain ⟨cfg, dev, ch, mux, ⟨n, wr⟩⟩ := s
  unfold Server.serveWith RWMutex.Lock at hret ⊢
  cases wr
  · cases n with
    | zero => simp [RWMutex.Unlock, RWMutex.zero]
    | succ k => simp at hret
  · simp at hret

theorem Server.serveWith_of_free (s : Server) (m : Option Handler)
    (hl : s.lck = RWMutex.zero) : (s.serveWith m).exit = Exit.returned := by
  obtain ⟨cfg, dev, ch, mux, lck⟩ := s
  simp only at hl
  subst hl
  rfl

/-- C3: once `serveWith(h)` has returned for a present handler h, and after
any number of further requests, a request whose path differs from the health
check path is forwarded: the events are the read lock, exactly one call of h
with the same writer and request, and the read unlock; the writer left behind
is the one h left, the call ends as h ended (return or panic), and the
not-ready `http.Error` call is not made. -/
theorem forwarded_after_install (s : Server) (h : Handler)
    (later : List (ResponseWriter × Request)) (w : ResponseWriter) (r : Request)
    (hret : (s.serveWith (some h)).exit = Exit.returned)
    (hp : r.URL.Path ≠ s.cfg.HealthCheckURI) :
    ((((s.serveWith (some h)).server.run
        (later.map (fun p => Op.ServeHTTP p.1 p.2))).ServeHTTP w r).trace
      = [Event.RLock, Event.call h w r, Event.RUnlock]) ∧
    ((((s.serveWith (some h)).server.run
        (later.map (fun p => Op.ServeHTTP p.1 p.2))).ServeHTTP w r).w
      = (h.ServeHTTP w r).w) ∧
    ((((s.serveWith (some h)).server.run
        (later.map (fun p => Op.ServeHTTP p.1 p.2))).ServeHTTP w r).exit
      = Exit.ofPanic (h.ServeHTTP w r).panic) ∧
    ((((s.serveWith (some h)).server.run
        (later.map (fun p => Op.ServeHTTP p.1 p.2))).ServeHTTP w r).trace.countP
        Event.isCall = 1) ∧
    ((((s.serveWith (some h)).server.run
        (later.map (fun p => Op.ServeHTTP p.1 p.2))).ServeHTTP w r).trace.countP
        Event.isHttpError = 0) := by
  obtain ⟨hs, -, hz⟩ := Server.serveWith_returned s (some h) hret
  rw [Server.run_requests, hs]
  rw [Server.ServeHTTP_present { s with mux := some h } w r h hp (by simp [hz, RWMutex.zero]) rfl]
  exact ⟨rfl, rfl, rfl, rfl, rfl⟩

/-- Witness of C3: install a handler on the server at rest, serve a health
probe, then a search request. -/
theorem forwarded_after_install_witness :
    (exampleServer.serveWith (some exampleHandler)).exit = Exit.returned ∧
    exampleSearchRequest.URL.Path ≠ exampleServer.cfg.HealthCheckURI ∧
    ((((exampleServer.serveWith (some exampleHandler)).server.run
        ([(ResponseWriter.fresh, exampleHealthRequest)].map
          (fun p => Op.ServeHTTP p.1 p.2))).ServeHTTP
        ResponseWriter.fresh exampleSearchRequest).w
      = (exampleHandler.ServeHTTP ResponseWriter.fresh exampleSearchRequest).w) :=
  ⟨rfl, by decide,
    (forwarded_after_install exampleServer exampleHandler
      [(ResponseWriter.fresh, exampleHealthRequest)] ResponseWriter.fresh exampleSearchRequest
      rfl (by decide)).2.1⟩

/-- C6 as stated fails: for a search request on the server at rest with no
handler, the body written is not the bare message; it is the message followed
by a newline. -/
theorem not_ready_body_is_not_bare_message :
    exampleSearchRequest.URL.Path ≠ exampleServer.cfg.HealthCheckURI ∧
    exampleServer.mux = none ∧
    (exampleServer.ServeHTTP ResponseWriter.fresh exampleSearchRequest).w.body
      ≠ "Gitgrep is not ready." ∧
    (exampleServer.ServeHTTP ResponseWriter.fresh exampleSearchRequest).w.body
      = "Gitgrep is not ready.\n" := by
  refine ⟨by decide, rfl, ?_, ?_⟩
  · rw [Server.ServeHTTP_absent exampleServer _ _ (by decide) rfl rfl, httpError_body]
    decide
  · rw [Server.ServeHTTP_absent exampleServer _ _ (by decide) rfl rfl, httpError_body]
    decide

/-- C6 amended: for every request whose path differs from the health check
path, dispatched while no handler is installed and no writer holds the mutex,
`ServeHTTP` appends to the body exactly the text "Gitgrep is not ready."
followed by one newline, and the content type of the response is
text/plain; charset=utf-8. -/
theorem not_ready_body_plain_text (s : Server) (w : ResponseWriter) (r : Request)
    (hp : r.URL.Path ≠ s.cfg.HealthCheckURI) (hm : s.mux = none)
    (hl : s.lck.writer = false) :
    (s.ServeHTTP w r).w.body = w.body ++ "Gitgrep is not ready.\n" ∧
    (s.ServeHTTP w r).w.Get "Content-Type" = some "text/plain; charset=utf-8" ∧
    (s.ServeHTTP w r).exit = Exit.returned := by
  rw [Server.ServeHTTP_absent s w r hp hl hm]
  refine ⟨?_, httpError_contentType w _ _, rfl⟩
  rw [httpError_body]
  rfl

/-- Witness of C6 amended: a search request on the server at rest. -/
theorem not_ready_body_plain_text_witness :
    exampleSearchRequest.URL.Path ≠ exampleServer.cfg.HealthCheckURI ∧
    exampleServer.mux = none ∧
    exampleServer.lck.writer = false ∧
    (exampleServer.ServeHTTP ResponseWriter.fresh exampleSearchRequest).w.body
      = ResponseWriter.fresh.body ++ "Gitgrep is not ready.\n" :=
  ⟨by decide, rfl, rfl,
    (not_ready_body_plain_text exampleServer ResponseWriter.fresh exampleSearchRequest
      (by decide) rfl rfl).1⟩

/-- C9: `ServeHTTP` leaves the mutex balanced on every way out.  A request for
the health check path performs no lock event at all.  Any other request,
when no writer holds the mutex, performs exactly one read lock, first, and
exactly one read unlock, last, whether the body ended in the not-ready
branch, by the return of the forwarded handler or by its panic; the call ends
as the handler ended; the mutex is back in its initial state.  In every case
no write lock event and no store occurs, and the server, its handler
included, is unchanged. -/
theorem lock_balanced_on_every_exit (s : Server) (w : ResponseWriter) (r : Request) :
    (r.URL.Path = s.cfg.HealthCheckURI →
      (s.ServeHTTP w r).trace = [] ∧ (s.ServeHTTP w r).exit = Exit.returned) ∧
    (r.URL.Path ≠ s.cfg.HealthCheckURI → s.lck.writer = false →
      (s.ServeHTTP w r).exit ≠ Exit.blocked ∧
      (s.ServeHTTP w r).trace.countP Event.isRLock = 1 ∧
      (s.ServeHTTP w r).trace.countP Event.isRUnlock = 1 ∧
      (s.ServeHTTP w r).trace.head? = some Event.RLock ∧
      (s.ServeHTTP w r).trace.getLast? = some Event.RUnlock ∧
      (s.mux = none → (s.ServeHTTP w r).exit = Exit.returned) ∧
      (∀ h, s.mux = some h →
        (s.ServeHTTP w r).exit = Exit.ofPanic (h.ServeHTTP w r).panic)) ∧
    (s.ServeHTTP w r).trace.countP Event.isWriteLock = 0 ∧
    (s.ServeHTTP w r).trace.countP Event.isStore = 0 ∧
    (s.ServeHTTP w r).server.lck = s.lck ∧
    (s.ServeHTTP w r).server.mux = s.mux ∧
    (s.ServeHTTP w r).server = s := by
  by_cases hp : r.URL.Path = s.cfg.HealthCheckURI
  · rw [Server.ServeHTTP_health s w r hp]
    simp [hp]
  · cases hl : s.lck.writer
    · cases hm : s.mux with
      | none =>
        rw [Server.ServeHTTP_absent s w r hp hl hm]
        simp [hp, hm, Event.isRLock, Event.isRUnlock, Event.isWriteLock, Event.isStore]
      | some h =>
        rw [Server.ServeHTTP_present s w r h hp hl hm]
        cases hpan : (h.ServeHTTP w r).panic <;>
          simp [hp, hm, hpan, Exit.ofPanic, Event.isRLock, Event.isRUnlock,
            Event.isWriteLock, Event.isStore]
    · rw [Server.ServeHTTP_blocked s w r hp hl]
      simp [hp]

/-- Witness of C9: a search request forwarded to a handler that panics; the
read lock is taken once and released once and the mutex is unlocked again. -/
theorem lock_balanced_on_every_exit_witness :
    exampleSearchRequest.URL.Path ≠ exampleConfig.HealthCheckURI ∧
    (({ exampleServer with mux := some panickingHandler } : Server).ServeHTTP
        ResponseWriter.fresh exampleSearchRequest).exit = Exit.panicked "boom" ∧
    (({ exampleServer with mux := some panickingHandler } : Server).ServeHTTP
        ResponseWriter.fresh exampleSearchRequest).trace.countP Event.isRUnlock = 1 ∧
    (({ exampleServer with mux := some panickingHandler } : Server).ServeHTTP
        ResponseWriter.fresh exampleSearchRequest).server.lck = RWMutex.zero :=
  ⟨by decide, rfl,
    ((lock_balanced_on_every_exit { exampleServer with mux := some panickingHandler }
      ResponseWriter.fresh exampleSearchRequest).2.1 (by decide) rfl).2.2.1,
    (lock_balanced_on_every_exit { exampleServer with mux := some panickingHandler }
      ResponseWriter.fresh exampleSearchRequest).2.2.2.2.1⟩

/-! ## Properties of the listener launcher -/

/-- C4: for every configuration, the goroutine started by `Start` makes one
listen call; it is `ListenAndServeTLS` with exactly the configured full-chain
and private-key file names when both names are non-empty, and
`ListenAndServe` otherwise (neither name, or only one of the two); in both
modes the address is the one given and the dispatcher is the returned server
pointer. -/
theorem transport_selection (rt : Runtime) (cfg : Config) (addr : String) (dev : Bool)
    (listen : ListenCall → Error) :
    (listenCalls ((Start rt cfg addr dev).goroutine listen)
      = [if cfg.FullCertFilename ≠ "" ∧ cfg.PrivCertFilename ≠ "" then
           ListenCall.ListenAndServeTLS addr cfg.FullCertFilename cfg.PrivCertFilename
             (Start rt cfg addr dev).s
         else ListenCall.ListenAndServe addr (Start rt cfg addr dev).s]) ∧
    ((∃ a c k p, listenCalls ((Start rt cfg addr dev).goroutine listen)
        = [ListenCall.ListenAndServeTLS a c k p])
      ↔ (cfg.FullCertFilename ≠ "" ∧ cfg.PrivCertFilename ≠ "")) ∧
    (cfg.FullCertFilename = "" ∨ cfg.PrivCertFilename = "" →
      listenCalls ((Start rt cfg addr dev).goroutine listen)
        = [ListenCall.ListenAndServe addr (Start rt cfg addr dev).s]) := by
  by_cases hb : cfg.FullCertFilename ≠ "" ∧ cfg.PrivCertFilename ≠ ""
  · have hcalls : listenCalls ((Start rt cfg addr dev).goroutine listen)
        = [ListenCall.ListenAndServeTLS addr cfg.FullCertFilename cfg.PrivCertFilename
            (Start rt cfg addr dev).s] := by
      simp only [Start, Start.goroutine, if_pos hb]
      split <;> simp [listenCalls]
    refine ⟨by rw [hcalls, if_pos hb], ?_, ?_⟩
    · constructor
      · intro _
        exact hb
      · intro _
        exact ⟨_, _, _, _, hcalls⟩
    · intro h
      rcases h with h | h
      · exact absurd h hb.1
      · exact absurd h hb.2
  · have hcalls : listenCalls ((Start rt cfg addr dev).goroutine listen)
        = [ListenCall.ListenAndServe addr (Start rt cfg addr dev).s] := by
      simp only [Start, Start.goroutine, if_neg hb]
      split <;> simp [listenCalls]
    refine ⟨by rw [hcalls, if_neg hb], ?_, fun _ => hcalls⟩
    constructor
    · rintro ⟨a, c, k, p, h⟩
      rw [hcalls] at h
      simp at h
    · intro h
      exact absurd h hb

/-- Witness of C4: with only the certificate chain configured the listener is
plaintext. -/
theorem transport_selection_witness :
    (exampleHalfConfig.FullCertFilename = "" ∨ exampleHalfConfig.PrivCertFilename = "") ∧
    listenCalls ((Start { next := 0 } exampleHalfConfig ":6080" false).goroutine
        (fun _ => none))
      = [ListenCall.ListenAndServe ":6080"
          (Start { next := 0 } exampleHalfConfig ":6080" false).s] :=
  ⟨Or.inr rfl,
    (transport_selection { next := 0 } exampleHalfConfig ":6080" false
      (fun _ => none)).2.2 (Or.inr rfl)⟩

/-- C5: for every configuration and every error value returned by the listen
call, the goroutine started by `Start` makes exactly one listen call and
performs exactly one send, after the listen call, on the channel of the
returned server, and the value sent is the error that listen call returned;
a log line is written exactly when that error is not nil. -/
theorem single_listen_single_send (rt : Runtime) (cfg : Config) (addr : String) (dev : Bool)
    (listen : ListenCall → Error) :
    ∃ c msg,
      listenCalls ((Start rt cfg addr dev).goroutine listen) = [c] ∧
      sends ((Start rt cfg addr dev).goroutine listen)
        = [((Start rt cfg addr dev).server.ch, listen c)] ∧
      ((Start rt cfg addr dev).goroutine listen
        = if listen c = none then
            [GoEvent.listen c, GoEvent.send (Start rt cfg addr dev).server.ch (listen c)]
          else
            [GoEvent.listen c, GoEvent.log msg,
              GoEvent.send (Start rt cfg addr dev).server.ch (listen c)]) := by
  by_cases hb : cfg.FullCertFilename ≠ "" ∧ cfg.PrivCertFilename ≠ ""
  · refine ⟨ListenCall.ListenAndServeTLS addr cfg.FullCertFilename cfg.PrivCertFilename
        (Start rt cfg addr dev).s,
      "ListenAndServeTLS " ++ addr ++ ": " ++ errorText
        (listen (ListenCall.ListenAndServeTLS addr cfg.FullCertFilename cfg.PrivCertFilename
          (Start rt cfg addr dev).s)), ?_⟩
    simp only [Start, Start.goroutine, if_pos hb]
    split <;> simp_all [listenCalls, sends]
  · refine ⟨ListenCall.ListenAndServe addr (Start rt cfg addr dev).s,
      "ListenAndServe " ++ addr ++ ": " ++ errorText
        (listen (ListenCall.ListenAndServe addr (Start rt cfg addr dev).s)), ?_⟩
    simp only [Start, Start.goroutine, if_neg hb]
    split <;> simp_all [listenCalls, sends]

/-- Example for C5: a listen call that fails because the address is in use
delivers that error once. -/
theorem single_listen_single_send_example :
    sends ((Start { next := 0 } exampleConfig ":6080" false).goroutine
        (fun _ => some "bind: address already in use"))
      = [({ id := 0 }, some "bind: address already in use")] := by
  decide

/-! ## Properties of the installed handler over time -/

theorem Server.serveWith_free (s : Server) (m : Option Handler) (hz : s.lck = RWMutex.zero) :
    (s.serveWith m).server = { s with mux := m } :=
  (Server.serveWith_returned s m (Server.serveWith_of_free s m hz)).1

theorem Server.serveWith_cfg_dev (s : Server) (m : Option Handler) :
    (s.serveWith m).server.cfg = s.cfg ∧ (s.serveWith m).server.dev = s.dev := by
  unfold Server.serveWith
  cases s.lck.Lock <;> exact ⟨rfl, rfl⟩

theorem Server.ServeWithIndex_error {Idx : Type} (d : Deps Idx) (s : Server) (idx : Idx)
    (e : String) (he : d.uiContent s.dev s.cfg = Except.error e) :
    (s.ServeWithIndex d idx).server = s := by
  simp [Server.ServeWithIndex, he]

theorem Server.ServeWithIndex_ok {Idx : Type} (d : Deps Idx) (s : Server) (idx : Idx)
    (h : Handler) (hh : d.uiContent s.dev s.cfg = Except.ok h) :
    (s.ServeWithIndex d idx).server = (s.serveWith (some (d.indexHandler h idx))).server := by
  simp only [Server.ServeWithIndex, hh, Deps.indexHandler]
  split <;> rfl

theorem Server.apply_cfg_dev (s : Server) (op : Op) :
    (s.apply op).cfg = s.cfg ∧ (s.apply op).dev = s.dev := by
  cases op with
  | ServeHTTP w r => simp [Server.apply, Server.ServeHTTP_server]
  | serveWith m => exact Server.serveWith_cfg_dev s m
  | ServeWithIndex d idx =>
    simp only [Server.apply]
    cases hc : d.uiContent s.dev s.cfg with
    | error e => simp [Server.ServeWithIndex_error d s idx e hc]
    | ok h =>
      rw [Server.ServeWithIndex_ok d s idx h hc]
      exact Server.serveWith_cfg_dev s _

theorem Server.apply_lck (s : Server) (op : Op) (hz : s.lck = RWMutex.zero) :
    (s.apply op).lck = RWMutex.zero := by
  cases op with
  | ServeHTTP w r => simpa [Server.apply, Server.ServeHTTP_server] using hz
  | serveWith m =>
    simp only [Server.apply, Server.serveWith_free s m hz]
    exact hz
  | ServeWithIndex d idx =>
    simp only [Server.apply]
    cases hc : d.uiContent s.dev s.cfg with
    | error e => simpa [Server.ServeWithIndex_error d s idx e hc] using hz
    | ok h =>
      rw [Server.ServeWithIndex_ok d s idx h hc, Server.serveWith_free s _ hz]
      exact hz

theorem Server.apply_ServeHTTP_mux (s : Server) (w : ResponseWriter) (r : Request) :
    (s.apply (Op.ServeHTTP w r)).mux = s.mux := by
  simp [Server.apply, Server.ServeHTTP_server]

theorem Server.apply_serveWith_mux (s : Server) (m : Option Handler)
    (hz : s.lck = RWMutex.zero) : (s.apply (Op.serveWith m)).mux = m := by
  simp [Server.apply, Server.serveWith_free s m hz]

theorem Server.apply_ServeWithIndex_error_mux {Idx : Type} (d : Deps Idx) (s : Server)
    (idx : Idx) (e : String) (he : d.uiContent s.dev s.cfg = Except.error e) :
    (s.apply (Op.ServeWithIndex d idx)).mux = s.mux := by
  simp [Server.apply, Server.ServeWithIndex_error d s idx e he]

theorem Server.apply_ServeWithIndex_ok_mux {Idx : Type} (d : Deps Idx) (s : Server)
    (idx : Idx) (h : Handler) (hh : d.uiContent s.dev s.cfg = Except.ok h)
    (hz : s.lck = RWMutex.zero) :
    (s.apply (Op.ServeWithIndex d idx)).mux = some (d.indexHandler h idx) := by
  simp [Server.apply, Server.ServeWithIndex_ok d s idx h hh, Server.serveWith_free s _ hz]

theorem Server.apply_mux_of_not_installs (s : Server) (op : Op)
    (hn : op.installs s.cfg s.dev = false) : (s.apply op).mux = s.mux := by
  cases op with
  | ServeHTTP w r => exact Server.apply_ServeHTTP_mux s w r
  | serveWith m => simp [Op.installs] at hn
  | ServeWithIndex d idx =>
    cases hc : d.uiContent s.dev s.cfg with
    | error e => exact Server.apply_ServeWithIndex_error_mux d s idx e hc
    | ok h => simp [Op.installs, hc] at hn

theorem Server.run_invariants (ops : List Op) :
    ∀ (s : Server), s.lck = RWMutex.zero →
      (s.run ops).lck = RWMutex.zero ∧ (s.run ops).cfg = s.cfg ∧ (s.run ops).dev = s.dev := by
  induction ops with
  | nil =>
    intro s hz
    exact ⟨hz, rfl, rfl⟩
  | cons op ops ih =>
    intro s hz
    obtain ⟨h1, h2, h3⟩ := ih (s.apply op) (Server.apply_lck s op hz)
    have hcd := Server.apply_cfg_dev s op
    exact ⟨h1, h2.trans hcd.1, h3.trans hcd.2⟩

theorem Server.muxHistory_getLast (ops : List Op) :
    ∀ (s : Server), (s.muxHistory ops).getLast? = some (s.run ops).mux := by
  induction ops with
  | nil =>
    intro s
    rfl
  | cons op ops ih =>
    intro s
    have hne : (s.apply op).muxHistory ops ≠ [] := by
      cases ops <;> simp [Server.muxHistory]
    obtain ⟨x, xs, hx⟩ := List.exists_cons_of_ne_nil hne
    have hlast := ih (s.apply op)
    simp only [Server.muxHistory, Server.run, List.foldl_cons]
    rw [hx] at hlast ⊢
    rw [List.getLast?_cons_cons]
    exact hlast

theorem Server.muxHistory_const (cfg : Config) (dev : Bool) (ops : List Op) :
    ∀ (s : Server), s.cfg = cfg → s.dev = dev → ops.countP (Op.installs cfg dev) = 0 →
      ∀ b ∈ s.muxHistory ops, b = s.mux := by
  induction ops with
  | nil =>
    intro s _ _ _ b hb
    simpa [Server.muxHistory] using hb
  | cons op ops ih =>
    intro s hcfg hdev hc b hb
    simp only [List.countP_cons] at hc
    have hop : op.installs s.cfg s.dev = false := by
      rw [hcfg, hdev]
      cases hi : op.installs cfg dev with
      | false => rfl
      | true => simp [hi] at hc
    have hc0 : ops.countP (Op.installs cfg dev) = 0 := by omega
    have hcd := Server.apply_cfg_dev s op
    simp only [Server.muxHistory, List.mem_cons] at hb
    rcases hb with hb | hb
    · exact hb
    · rw [ih _ (hcd.1.trans hcfg) (hcd.2.trans hdev) hc0 b hb,
        Server.apply_mux_of_not_installs s op hop]

theorem Server.muxHistory_monotone (cfg : Config) (dev : Bool) (ops : List Op) :
    ∀ (s : Server), s.cfg = cfg → s.dev = dev → ops.countP (Op.installs cfg dev) ≤ 1 →
      (s.mux = none ∨ ops.countP (Op.installs cfg dev) = 0) →
      (s.muxHistory ops).Pairwise (fun a b => ∀ h, a = some h → b = some h) := by
  induction ops with
  | nil =>
    intro s _ _ _ _
    simp [Server.muxHistory]
  | cons op ops ih =>
    intro s hcfg hdev hc hd
    have hcd := Server.apply_cfg_dev s op
    simp only [Server.muxHistory, List.pairwise_cons]
    simp only [List.countP_cons] at hc hd
    cases hi : op.installs cfg dev with
    | false =>
      simp only [hi, Bool.false_eq_true, ↓reduceIte, Nat.add_zero] at hc hd
      have hmux := Server.apply_mux_of_not_installs s op (by rw [hcfg, hdev]; exact hi)
      refine ⟨?_, ih _ (hcd.1.trans hcfg) (hcd.2.trans hdev) hc (by rw [hmux]; exact hd)⟩
      intro b hb h hs
      rcases hd with hd | hd
      · rw [hd] at hs
        cases hs
      · rw [Server.muxHistory_const cfg dev ops _ (hcd.1.trans hcfg) (hcd.2.trans hdev) hd b hb,
          hmux]
        exact hs
    | true =>
      simp only [hi, ↓reduceIte] at hc hd
      have hc0 : ops.countP (Op.installs cfg dev) = 0 := by omega
      have hnone : s.mux = none := by
        rcases hd with hd | hd
        · exact hd
        · omega
      refine ⟨?_, ih _ (hcd.1.trans hcfg) (hcd.2.trans hdev) (by omega) (Or.inr hc0)⟩
      intro b _ h hs
      rw [hnone] at hs
      cases hs

theorem exampleHandler_ne_otherHandler : exampleHandler ≠ otherHandler := by
  intro h
  have h1 : (exampleHandler.ServeHTTP ResponseWriter.fresh exampleSearchRequest).w.status
      = (otherHandler.ServeHTTP ResponseWriter.fresh exampleSearchRequest).w.status := by
    rw [h]
  revert h1
  decide

/-- C7 as stated fails: two calls of `serveWith` on the server returned by
`Start` replace the first handler by the second, and a call with the nil
handler clears it. -/
theorem handler_replaced_by_second_serveWith :
    (Start { next := 0 } exampleConfig ":6080" false).server.muxHistory
        [Op.serveWith (some exampleHandler), Op.serveWith (some otherHandler)]
      = [none, some exampleHandler, some otherHandler] ∧
    some exampleHandler ≠ some otherHandler ∧
    (Start { next := 0 } exampleConfig ":6080" false).server.muxHistory
        [Op.serveWith (some exampleHandler), Op.serveWith none]
      = [none, some exampleHandler, none] ∧
    ¬ ((Start { next := 0 } exampleConfig ":6080" false).server.muxHistory
        [Op.serveWith (some exampleHandler), Op.serveWith (some otherHandler)]).Pairwise
        (fun a b => ∀ h, a = some h → b = some h) := by
  have hne : some exampleHandler ≠ some otherHandler := by
    intro h
    exact exampleHandler_ne_otherHandler (Option.some.inj h)
  have hhist : (Start { next := 0 } exampleConfig ":6080" false).server.muxHistory
        [Op.serveWith (some exampleHandler), Op.serveWith (some otherHandler)]
      = [none, some exampleHandler, some otherHandler] := rfl
  refine ⟨hhist, hne, rfl, ?_⟩
  rw [hhist]
  intro hp
  simp only [List.pairwise_cons] at hp
  have := hp.2.1 (some otherHandler) (by simp) exampleHandler rfl
  exact hne this.symm

/-- C7 amended: on the server returned by `Start` the installed handler starts
absent.  After every sequence of `ServeHTTP`, `serveWith` and `ServeWithIndex`
operations: a `ServeHTTP` call leaves it as it is; a `serveWith(m)` call sets
it to exactly m (last write wins); a `ServeWithIndex` call whose `ui.Content`
fails leaves it as it is, and one whose `ui.Content` succeeds sets it to the
mux built from that content and the index.  Over every such sequence with at
most one install (a `serveWith` call or a `ServeWithIndex` call whose
`ui.Content` succeeds) a handler that is installed at one point is the
installed handler at every later point, so the field changes at most once and
is not cleared or replaced. -/
theorem handler_set_at_most_once (rt : Runtime) (cfg : Config) (addr : String) (dev : Bool)
    (ops : List Op) :
    ((Start rt cfg addr dev).server.muxHistory ops).head? = some none ∧
    ((Start rt cfg addr dev).server.muxHistory ops).getLast?
      = some ((Start rt cfg addr dev).server.run ops).mux ∧
    (ops.countP (Op.installs cfg dev) ≤ 1 →
      ((Start rt cfg addr dev).server.muxHistory ops).Pairwise
        (fun a b => ∀ h, a = some h → b = some h)) ∧
    (∀ w r, (((Start rt cfg addr dev).server.run ops).apply (Op.ServeHTTP w r)).mux
      = ((Start rt cfg addr dev).server.run ops).mux) ∧
    (∀ m, (((Start rt cfg addr dev).server.run ops).apply (Op.serveWith m)).mux = m) ∧
    (∀ (Idx : Type) (d : Deps Idx) (idx : Idx) (e : String),
      d.uiContent dev cfg = Except.error e →
      (((Start rt cfg addr dev).server.run ops).apply (Op.ServeWithIndex d idx)).mux
        = ((Start rt cfg addr dev).server.run ops).mux) ∧
    (∀ (Idx : Type) (d : Deps Idx) (idx : Idx) (h : Handler),
      d.uiContent dev cfg = Except.ok h →
      (((Start rt cfg addr dev).server.run ops).apply (Op.ServeWithIndex d idx)).mux
        = some (d.indexHandler h idx)) := by
  obtain ⟨hz, hcfg, hdev⟩ := Server.run_invariants ops (Start rt cfg addr dev).server rfl
  have hcfg1 : ((Start rt cfg addr dev).server.run ops).cfg = cfg := hcfg
  have hdev1 : ((Start rt cfg addr dev).server.run ops).dev = dev := hdev
  refine ⟨?_, Server.muxHistory_getLast ops _, ?_, ?_, ?_, ?_, ?_⟩
  · cases ops <;> rfl
  · intro honce
    exact Server.muxHistory_monotone cfg dev ops _ rfl rfl honce (Or.inl rfl)
  · intro w r
    exact Server.apply_ServeHTTP_mux _ w r
  · intro m
    exact Server.apply_serveWith_mux _ m hz
  · intro Idx d idx e he
    exact Server.apply_ServeWithIndex_error_mux d _ idx e (by rw [hcfg1, hdev1]; exact he)
  · intro Idx d idx h hh
    exact Server.apply_ServeWithIndex_ok_mux d _ idx h (by rw [hcfg1, hdev1]; exact hh) hz

/-- Witness of C7 amended: a request, a `ServeWithIndex` call that fails, one
that succeeds, and two more requests; the one install is never undone. -/
theorem handler_set_at_most_once_witness :
    [Op.ServeHTTP ResponseWriter.fresh exampleSearchRequest,
      Op.ServeWithIndex failingDeps (),
      Op.ServeWithIndex workingDeps (),
      Op.ServeHTTP ResponseWriter.fresh exampleSearchRequest,
      Op.ServeHTTP ResponseWriter.fresh exampleHealthRequest].countP
        (Op.installs exampleConfig false) ≤ 1 ∧
    ((Start { next := 0 } exampleConfig ":6080" false).server.muxHistory
      [Op.ServeHTTP ResponseWriter.fresh exampleSearchRequest,
        Op.ServeWithIndex failingDeps (),
        Op.ServeWithIndex workingDeps (),
        Op.ServeHTTP ResponseWriter.fresh exampleSearchRequest,
        Op.ServeHTTP ResponseWriter.fresh exampleHealthRequest]).Pairwise
      (fun a b => ∀ h, a = some h → b = some h) ∧
    (((Start { next := 0 } exampleConfig ":6080" false).server.run
      [Op.ServeHTTP ResponseWriter.fresh exampleSearchRequest,
        Op.ServeWithIndex failingDeps (),
        Op.ServeWithIndex workingDeps (),
        Op.ServeHTTP ResponseWriter.fresh exampleSearchRequest,
        Op.ServeHTTP ResponseWriter.fresh exampleHealthRequest]).apply
      (Op.serveWith (some otherHandler))).mux = some otherHandler :=
  ⟨by decide,
    (handler_set_at_most_once { next := 0 } exampleConfig ":6080" false
      [Op.ServeHTTP ResponseWriter.fresh exampleSearchRequest,
        Op.ServeWithIndex failingDeps (),
        Op.ServeWithIndex workingDeps (),
        Op.ServeHTTP ResponseWriter.fresh exampleSearchRequest,
        Op.ServeHTTP ResponseWriter.fresh exampleHealthRequest]).2.2.1 (by decide),
    (handler_set_at_most_once { next := 0 } exampleConfig ":6080" false
      [Op.ServeHTTP ResponseWriter.fresh exampleSearchRequest,
        Op.ServeWithIndex failingDeps (),
        Op.ServeWithIndex workingDeps (),
        Op.ServeHTTP ResponseWriter.fresh exampleSearchRequest,
        Op.ServeHTTP ResponseWriter.fresh exampleHealthRequest]).2.2.2.2.1
      (some otherHandler)⟩

/-! ## Properties of ServeWithIndex -/

/-- C10: if `ui.Content` fails with e, `ServeWithIndex` returns exactly e, the
server is unchanged, and no event occurs: no lock, no store, no receive; so a
server without a handler still answers other paths with the not-ready
response.  If `ui.Content` succeeds and the mutex is free, the events are the
write lock, the store of the new mux, the write unlock and then the receive
on the result channel, the handler is installed in the server state at the
receive, and the call returns what is received.  A store occurs only when
`ui.Content` succeeded. -/
theorem content_failure_installs_nothing {Idx : Type} (d : Deps Idx) (s : Server) (idx : Idx) :
    (∀ e, d.uiContent s.dev s.cfg = Except.error e →
      (s.ServeWithIndex d idx).ret = Ret.value (some e) ∧
      (s.ServeWithIndex d idx).server = s ∧
      (s.ServeWithIndex d idx).trace = [] ∧
      (s.mux = none → s.lck.writer = false →
        ∀ w r, r.URL.Path ≠ s.cfg.HealthCheckURI →
          ((s.ServeWithIndex d idx).server.ServeHTTP w r).w
            = httpError w "Gitgrep is not ready." 503)) ∧
    (∀ h, d.uiContent s.dev s.cfg = Except.ok h → s.lck = RWMutex.zero →
      ∃ m,
        (s.ServeWithIndex d idx).server.mux = some m ∧
        (s.ServeWithIndex d idx).trace
          = [Event.Lock, Event.store (some m), Event.Unlock,
              Event.recv (d.jwtCookieAuth (s.ServeWithIndex d idx).server).ch] ∧
        (s.ServeWithIndex d idx).ret
          = Ret.received (d.jwtCookieAuth (s.ServeWithIndex d idx).server).ch) ∧
    ((s.ServeWithIndex d idx).trace.countP Event.isStore ≠ 0 →
      ∃ h, d.uiContent s.dev s.cfg = Except.ok h) := by
  refine ⟨?_, ?_, ?_⟩
  · intro e he
    have hres : s.ServeWithIndex d idx
        = { server := s, trace := [], ret := Ret.value (some e) } := by
      simp [Server.ServeWithIndex, he]
    rw [hres]
    refine ⟨rfl, rfl, rfl, ?_⟩
    intro hm hl w r hp
    rw [Server.ServeHTTP_absent s w r hp hl hm]
    rfl
  · intro h hh hz
    have hret := Server.serveWith_of_free s
      (some (d.asHandler (d.apiSetup (NewServeMux.Handle "/" h) idx))) hz
    obtain ⟨hs, ht, -⟩ := Server.serveWith_returned s _ hret
    refine ⟨d.asHandler (d.apiSetup (NewServeMux.Handle "/" h) idx), ?_⟩
    simp [Server.ServeWithIndex, hh, hret, hs, ht]
  · intro hstore
    cases hc : d.uiContent s.dev s.cfg with
    | ok h => exact ⟨h, rfl⟩
    | error e =>
      exfalso
      apply hstore
      simp [Server.ServeWithIndex, hc]

/-- Witness of C10: with failing UI content the call returns the error and
the server at rest is unchanged; with working content the mux is installed
before the receive. -/
theorem content_failure_installs_nothing_witness :
    failingDeps.uiContent exampleServer.dev exampleServer.cfg
      = Except.error "ui: asset missing" ∧
    (exampleServer.ServeWithIndex failingDeps ()).ret
      = Ret.value (some "ui: asset missing") ∧
    (exampleServer.ServeWithIndex failingDeps ()).trace = [] ∧
    (∃ m, (exampleServer.ServeWithIndex workingDeps ()).server.mux = some m) :=
  ⟨rfl,
    ((content_failure_installs_nothing failingDeps exampleServer ()).1
      "ui: asset missing" rfl).1,
    ((content_failure_installs_nothing failingDeps exampleServer ()).1
      "ui: asset missing" rfl).2.2.1,
    let ⟨m, hm, _⟩ := (content_failure_installs_nothing workingDeps exampleServer ()).2.1
      exampleHandler rfl rfl
    ⟨m, hm⟩⟩

/-! ## Properties of concurrent requests and one install -/

theorem countP_set_of_get {α : Type} (p : α → Bool) (b : α) :
    ∀ (l : List α) (i : Nat) (a : α), l[i]? = some a →
      (l.set i b).countP p + (if p a then 1 else 0) = l.countP p + (if p b then 1 else 0) := by
  intro l
  induction l with
  | nil => intro i a h; simp at h
  | cons x xs ih =>
    intro i a h
    cases i with
    | zero =>
      simp only [List.getElem?_cons_zero, Option.some.injEq] at h
      subst h
      simp only [List.set_cons_zero, List.countP_cons]
      omega
    | succ k =>
      simp only [List.getElem?_cons_succ] at h
      have := ih k a h
      simp only [List.set_cons_succ, List.countP_cons]
      omega

theorem map_set_of_same {α β : Type} (f : α → β) (b : α) :
    ∀ (l : List α) (i : Nat) (a : α), l[i]? = some a → f b = f a →
      (l.set i b).map f = l.map f := by
  intro l
  induction l with
  | nil => intro i a h; simp at h
  | cons x xs ih =>
    intro i a h hf
    cases i with
    | zero =>
      simp only [List.getElem?_cons_zero, Option.some.injEq] at h
      subst h
      simp [hf]
    | succ k =>
      simp only [List.getElem?_cons_succ] at h
      simp [ih k a h hf]

theorem Reader.responseWith_health (s0 : Server) (x : Option Handler) (t : Reader)
    (hp : t.r.URL.Path = s0.cfg.HealthCheckURI) :
    t.responseWith s0 x = (Fprintln t.w0 healthPayload, Exit.returned) := by
  unfold Reader.responseWith
  rw [Server.ServeHTTP_health _ _ _ (by exact hp)]

theorem Reader.responseWith_none (s0 : Server) (t : Reader)
    (hz : s0.lck = RWMutex.zero) (hp : t.r.URL.Path ≠ s0.cfg.HealthCheckURI) :
    t.responseWith s0 none
      = (httpError t.w0 notReadyMessage StatusServiceUnavailable, Exit.returned) := by
  unfold Reader.responseWith
  rw [Server.ServeHTTP_absent _ _ _ (by exact hp) (by simp [hz, RWMutex.zero]) rfl]

theorem Reader.responseWith_some (s0 : Server) (h : Handler) (t : Reader)
    (hz : s0.lck = RWMutex.zero) (hp : t.r.URL.Path ≠ s0.cfg.HealthCheckURI) :
    t.responseWith s0 (some h)
      = ((h.ServeHTTP t.w0 t.r).w, Exit.ofPanic (h.ServeHTTP t.w0 t.r).panic) := by
  unfold Reader.responseWith
  rw [Server.ServeHTTP_present _ _ _ h (by exact hp) (by simp [hz, RWMutex.zero]) rfl]

/-- One statement of a request goroutine keeps its invariant, keeps the
configuration and the field mux, and changes the read count by what the
goroutine gained or gave up. -/
theorem Reader.step_spec (s0 s s1 : Server) (m : Option Handler) (torn installed : Bool)
    (t t1 : Reader) (hz : s0.lck = RWMutex.zero) (hcfg : s.cfg = s0.cfg)
    (hinv : t.Inv s0 m s.mux installed)
    (hheld : t.pc.holds = true →
      0 < s.lck.readers ∧ torn = false ∧
        ((s.mux = s0.mux ∧ installed = false) ∨ (s.mux = m ∧ installed = true)))
    (hstep : t.step s torn installed = some (s1, t1)) :
    t1.Inv s0 m s.mux installed ∧ s1.mux = s.mux ∧ s1.cfg = s.cfg ∧
    t1.w0 = t.w0 ∧ t1.r = t.r ∧ s1.lck.writer = s.lck.writer ∧
    s1.lck.readers + (if t.pc.holds then 1 else 0)
      = s.lck.readers + (if t1.pc.holds then 1 else 0) ∧
    (t.pc.holds = false → t1.pc.holds = true → s.lck.writer = false) := by
  obtain ⟨hsaw, hafter, hat⟩ := hinv
  unfold Reader.step at hstep
  cases hpc : t.pc with
  | start =>
    rw [hpc] at hat hstep
    obtain ⟨⟨hw, hex⟩, -⟩ := hat
    simp only at hstep
    split at hstep
    · rename_i hp
      cases hstep
      rw [hcfg] at hp
      refine ⟨⟨hsaw, fun h => h, ?_⟩, rfl, rfl, rfl, rfl, rfl, by simp [ReaderPC.holds], by
        simp [ReaderPC.holds]⟩
      have hresp : ∀ x, Reader.response
          { t with pc := ReaderPC.done, w := Fprintln t.w healthPayload,
                   afterInstall := installed }
          = Reader.responseWith s0 x
              { t with pc := ReaderPC.done, w := Fprintln t.w healthPayload,
                       afterInstall := installed } := by
        intro x
        change _ = Reader.responseWith s0 x t
        rw [Reader.responseWith_health s0 x t hp]
        simp [Reader.response, hw, hex]
      exact ⟨Or.inl (hresp _), fun _ => hresp _⟩
    · rename_i hp
      cases hstep
      rw [hcfg] at hp
      exact ⟨⟨hsaw, fun h => h, ⟨hw, hex⟩, hp⟩, rfl, rfl, rfl, rfl, rfl,
        by simp [ReaderPC.holds], by simp [ReaderPC.holds]⟩
  | atRLock =>
    rw [hpc] at hat hstep
    simp only at hstep
    cases hl : s.lck.writer with
    | true => simp [RWMutex.RLock, hl] at hstep
    | false =>
      simp only [RWMutex.RLock, hl] at hstep
      cases hstep
      exact ⟨⟨hsaw, hafter, hat⟩, rfl, rfl, rfl, rfl, hl.symm ▸ rfl,
        by simp [ReaderPC.holds], fun _ _ => rfl⟩
  | atCheck =>
    rw [hpc] at hat hstep hheld
    obtain ⟨-, htorn, hmux⟩ := hheld rfl
    subst htorn
    simp only at hstep
    cases hm : s.mux with
    | some h =>
      simp only [hm] at hstep
      cases hstep
      exact ⟨⟨hsaw, hafter, hat.1, hat.2, h, rfl⟩, hm, rfl, rfl, rfl, rfl,
        by simp [ReaderPC.holds], by simp [ReaderPC.holds]⟩
    | none =>
      simp only [hm] at hstep
      cases hstep
      refine ⟨⟨hsaw, hafter, hat.1, hat.2, ?_, ?_⟩, hm, rfl, rfl, rfl, rfl,
        by simp [ReaderPC.holds], by simp [ReaderPC.holds]⟩
      · rcases hmux with ⟨h1, -⟩ | ⟨h1, -⟩
        · exact Or.inl (h1.symm.trans hm)
        · exact Or.inr (h1.symm.trans hm)
      · intro ha
        have hi := hafter ha
        rcases hmux with ⟨-, h2⟩ | ⟨h1, -⟩
        · rw [h2] at hi
          cases hi
        · exact h1.symm.trans hm
  | atForward =>
    rw [hpc] at hat hstep hheld
    obtain ⟨-, htorn, hmux⟩ := hheld rfl
    subst htorn
    obtain ⟨⟨hw, hex⟩, hp, h, hm⟩ := hat
    simp only [hm] at hstep
    cases hstep
    refine ⟨⟨hsaw, hafter, ?_⟩, rfl, rfl, rfl, rfl, rfl,
      by simp [ReaderPC.holds], by simp [ReaderPC.holds]⟩
    have hresp : Reader.response
        { t with pc := ReaderPC.atRUnlock, w := (h.ServeHTTP t.w t.r).w,
                 exit := Exit.ofPanic (h.ServeHTTP t.w t.r).panic }
        = Reader.responseWith s0 (some h)
            { t with pc := ReaderPC.atRUnlock, w := (h.ServeHTTP t.w t.r).w,
                     exit := Exit.ofPanic (h.ServeHTTP t.w t.r).panic } := by
      change _ = Reader.responseWith s0 (some h) t
      rw [Reader.responseWith_some s0 h t hz hp]
      simp [Reader.response, hw]
    rcases hmux with ⟨h1, h2⟩ | ⟨h1, -⟩
    · refine ⟨Or.inl ?_, ?_⟩
      · rw [← h1, hm]
        exact hresp
      · intro ha
        have hi := hafter ha
        rw [h2] at hi
        cases hi
    · refine ⟨Or.inr ?_, fun _ => ?_⟩
      · rw [← h1, hm]
        exact hresp
      · rw [← h1, hm]
        exact hresp
  | atError =>
    rw [hpc] at hat hstep
    obtain ⟨⟨hw, hex⟩, hp, hnone, haft⟩ := hat
    simp only at hstep
    cases hstep
    refine ⟨⟨hsaw, hafter, ?_⟩, rfl, rfl, rfl, rfl, rfl,
      by simp [ReaderPC.holds], by simp [ReaderPC.holds]⟩
    have hresp : Reader.response
        { t with pc := ReaderPC.atRUnlock,
                 w := httpError t.w notReadyMessage StatusServiceUnavailable }
        = Reader.responseWith s0 none
            { t with pc := ReaderPC.atRUnlock,
                     w := httpError t.w notReadyMessage StatusServiceUnavailable } := by
      change _ = Reader.responseWith s0 none t
      rw [Reader.responseWith_none s0 t hz hp]
      simp [Reader.response, hw, hex]
    refine ⟨?_, fun ha => ?_⟩
    · rcases hnone with h1 | h1
      · exact Or.inl (by rw [h1]; exact hresp)
      · exact Or.inr (by rw [h1]; exact hresp)
    · rw [haft ha]
      exact hresp
  | atRUnlock =>
    rw [hpc] at hat hstep hheld
    obtain ⟨hpos, -, -⟩ := hheld rfl
    simp only at hstep
    cases hstep
    refine ⟨⟨hsaw, hafter, hat⟩, rfl, rfl, rfl, rfl, rfl, ?_, by simp [ReaderPC.holds]⟩
    simp only [RWMutex.RUnlock, ReaderPC.holds]
    simp
    omega
  | done =>
    rw [hpc] at hstep
    simp at hstep

theorem Reader.Inv.of_not_holds (s0 : Server) (m mux mux1 : Option Handler) (b : Bool)
    (t : Reader) (hn : t.pc.holds = false) (h : t.Inv s0 m mux b) : t.Inv s0 m mux1 b := by
  obtain ⟨h1, h2, h3⟩ := h
  refine ⟨h1, h2, ?_⟩
  cases hpc : t.pc <;> rw [hpc] at hn h3 <;> first | exact h3 | simp [ReaderPC.holds] at hn

theorem Reader.Inv.installed (s0 : Server) (m mux : Option Handler) (b : Bool)
    (t : Reader) (h : t.Inv s0 m mux b) : t.Inv s0 m mux true :=
  ⟨h.1, fun _ => rfl, h.2.2⟩

theorem Sys.Inv.init (s0 : Server) (m : Option Handler)
    (reqs : List (ResponseWriter × Request)) (hz : s0.lck = RWMutex.zero) :
    (Sys.init s0 m reqs).Inv s0 m reqs := by
  refine ⟨rfl, rfl, ?_, ?_, ?_, rfl, rfl, ?_, ?_⟩
  · simp only [Sys.init, hz, RWMutex.zero]
    symm
    rw [List.countP_eq_zero]
    intro t ht
    simp only [List.mem_map] at ht
    obtain ⟨p, -, rfl⟩ := ht
    simp [Reader.init, ReaderPC.holds]
  · simp [Sys.init, hz, RWMutex.zero, WriterPC.holds]
  · intro _
    simp [Sys.init, hz, RWMutex.zero]
  · simp [Sys.init, Reader.init, Function.comp_def]
  · intro t ht
    simp only [Sys.init, List.mem_map] at ht
    obtain ⟨p, -, rfl⟩ := ht
    exact ⟨rfl, fun h => by simp [Reader.init] at h, ⟨rfl, rfl⟩, rfl⟩

theorem Sys.Inv.held_facts {s0 : Server} {m : Option Handler}
    {reqs : List (ResponseWriter × Request)} {σ : Sys} (hI : σ.Inv s0 m reqs)
    (t : Reader) (ht : t ∈ σ.readers) (hh : t.pc.holds = true) :
    0 < σ.server.lck.readers ∧ σ.torn = false ∧
      ((σ.server.mux = s0.mux ∧ decide (σ.installer = WriterPC.done) = false) ∨
       (σ.server.mux = m ∧ decide (σ.installer = WriterPC.done) = true)) := by
  have hpos : 0 < σ.server.lck.readers := by
    rw [hI.count, List.countP_pos_iff]
    exact ⟨t, ht, hh⟩
  have hw : σ.server.lck.writer = false := by
    cases hc : σ.server.lck.writer with
    | false => rfl
    | true =>
      have := hI.excl hc
      omega
  have hhold := hI.wflag
  rw [hw] at hhold
  have htorn := hI.torn
  have hmux := hI.mux
  refine ⟨hpos, ?_, ?_⟩
  · cases hi : σ.installer <;> rw [hi] at hhold htorn <;>
      first | (simp [WriterPC.holds] at hhold; done) | simpa using htorn
  · cases hi : σ.installer with
    | atLock =>
      rw [hi] at hmux
      exact Or.inl ⟨by simpa [WriterPC.stored] using hmux, by simp⟩
    | done =>
      rw [hi] at hmux
      exact Or.inr ⟨by simpa [WriterPC.stored] using hmux, by simp⟩
    | atStore => simp [hi, WriterPC.holds] at hhold
    | midStore => simp [hi, WriterPC.holds] at hhold
    | atUnlock => simp [hi, WriterPC.holds] at hhold

theorem Sys.Inv.stepInstaller {s0 : Server} {m : Option Handler}
    {reqs : List (ResponseWriter × Request)} {σ σ1 : Sys} (hI : σ.Inv s0 m reqs)
    (hstep : σ.stepInstaller = some σ1) : σ1.Inv s0 m reqs := by
  unfold Sys.stepInstaller at hstep
  have hmux := hI.mux
  have htorn := hI.torn
  have hwf := hI.wflag
  cases hi : σ.installer with
  | atLock =>
    rw [hi] at hstep hmux htorn hwf
    simp only at hstep
    cases hw : σ.server.lck.writer with
    | true => simp [RWMutex.Lock, hw] at hstep
    | false =>
      cases hn : σ.server.lck.readers with
      | succ k => simp [RWMutex.Lock, hw, hn] at hstep
      | zero =>
        simp only [RWMutex.Lock, hw, hn] at hstep
        simp only [Bool.false_or, bne_self_eq_false, Bool.false_eq_true, ↓reduceIte,
          Option.some.injEq] at hstep
        subst hstep
        refine ⟨hI.cfg, hI.arg, ?_, rfl, fun _ => rfl, ?_, ?_, hI.reqs, ?_⟩
        · have hc := hI.count
          rw [hn] at hc
          exact hc
        · simpa using htorn
        · simpa [WriterPC.stored] using hmux
        · intro t ht
          have := hI.readers t ht
          simpa [hi] using this
  | atStore =>
    rw [hi] at hstep hmux htorn hwf
    simp only [Option.some.injEq] at hstep
    subst hstep
    refine ⟨hI.cfg, hI.arg, hI.count, ?_, hI.excl, ?_, ?_, hI.reqs, ?_⟩
    · simpa [WriterPC.holds] using hwf
    · simp
    · simpa [WriterPC.stored] using hmux
    · intro t ht
      have := hI.readers t ht
      simpa [hi] using this
  | midStore =>
    rw [hi] at hstep hmux htorn hwf
    simp only [Option.some.injEq] at hstep
    subst hstep
    have hzero : σ.server.lck.readers = 0 := hI.excl (by simpa [WriterPC.holds] using hwf)
    refine ⟨hI.cfg, hI.arg, hI.count, ?_, hI.excl, ?_, ?_, hI.reqs, ?_⟩
    · simpa [WriterPC.holds] using hwf
    · simp
    · simp [WriterPC.stored, hI.arg]
    · intro t ht
      have hinv := hI.readers t ht
      have hnh : t.pc.holds = false := by
        have hc := hI.count
        rw [hzero] at hc
        have := (List.countP_eq_zero.mp hc.symm) t ht
        simpa using this
      have := Reader.Inv.of_not_holds s0 m _ σ.m _ t hnh hinv
      simpa [hi] using this
  | atUnlock =>
    rw [hi] at hstep hmux htorn hwf
    simp only [Option.some.injEq] at hstep
    subst hstep
    refine ⟨hI.cfg, hI.arg, hI.count, ?_, ?_, ?_, ?_, hI.reqs, ?_⟩
    · simp [RWMutex.Unlock, WriterPC.holds]
    · intro h
      simp [RWMutex.Unlock] at h
    · simpa using htorn
    · simpa [WriterPC.stored] using hmux
    · intro t ht
      have := Reader.Inv.installed s0 m _ _ t (hI.readers t ht)
      simpa using this
  | done =>
    rw [hi] at hstep
    simp at hstep

theorem Sys.Inv.stepRequest {s0 : Server} {m : Option Handler}
    {reqs : List (ResponseWriter × Request)} {σ σ1 : Sys} (hz : s0.lck = RWMutex.zero)
    (hI : σ.Inv s0 m reqs) (i : Nat) (hstep : σ.stepRequest i = some σ1) :
    σ1.Inv s0 m reqs := by
  unfold Sys.stepRequest at hstep
  cases hget : σ.readers[i]? with
  | none => simp [hget] at hstep
  | some t =>
    simp only [hget] at hstep
    have ht : t ∈ σ.readers := List.getElem?_mem hget
    cases hst : t.step σ.server σ.torn (decide (σ.installer = WriterPC.done)) with
    | none => simp [hst] at hstep
    | some p =>
      obtain ⟨s1, t1⟩ := p
      simp only [hst, Option.some.injEq] at hstep
      subst hstep
      obtain ⟨hinv1, hmux1, hcfg1, hw0, hr, hwr, hcnt, hnew⟩ :=
        Reader.step_spec s0 σ.server s1 m σ.torn _ t t1 hz hI.cfg (hI.readers t ht)
          (fun hh => hI.held_facts t ht hh) hst
      have hset := countP_set_of_get (fun t => t.pc.holds) t1 σ.readers i t hget
      have hcount := hI.count
      simp only at hset
      refine ⟨hcfg1.trans hI.cfg, hI.arg, ?_, hwr.trans hI.wflag, ?_, hI.torn, ?_, ?_, ?_⟩
      · show s1.lck.readers = (σ.readers.set i t1).countP (fun t => t.pc.holds)
        omega
      · intro hw
        show s1.lck.readers = 0
        rw [hwr] at hw
        have hzero := hI.excl hw
        cases hh : t.pc.holds with
        | true =>
          have := (hI.held_facts t ht hh).1
          omega
        | false =>
          cases hh1 : t1.pc.holds with
          | true =>
            have := hnew hh hh1
            rw [this] at hw
            cases hw
          | false =>
            rw [hh, hh1] at hcnt
            simpa [hzero] using hcnt
      · show s1.mux = _
        rw [hmux1]
        exact hI.mux
      · show (σ.readers.set i t1).map (fun t => (t.w0, t.r)) = reqs
        rw [map_set_of_same (fun t => (t.w0, t.r)) t1 σ.readers i t hget (by simp [hw0, hr])]
        exact hI.reqs
      · intro u hu
        show u.Inv s0 m s1.mux _
        rw [hmux1]
        rcases List.mem_or_eq_of_mem_set hu with hu | hu
        · exact hI.readers u hu
        · rw [hu]
          exact hinv1

theorem Sys.Inv.step {s0 : Server} {m : Option Handler}
    {reqs : List (ResponseWriter × Request)} {σ : Sys} (hz : s0.lck = RWMutex.zero)
    (hI : σ.Inv s0 m reqs) (tid : Tid) : (σ.step tid).Inv s0 m reqs := by
  cases tid with
  | installer =>
    simp only [Sys.step]
    cases h : σ.stepInstaller with
    | none => exact hI
    | some σ1 => exact hI.stepInstaller h
  | request i =>
    simp only [Sys.step]
    cases h : σ.stepRequest i with
    | none => exact hI
    | some σ1 => exact hI.stepRequest hz i h

theorem Sys.Inv.run {s0 : Server} {m : Option Handler}
    {reqs : List (ResponseWriter × Request)} (hz : s0.lck = RWMutex.zero)
    (sched : List Tid) : ∀ {σ : Sys}, σ.Inv s0 m reqs → (σ.run sched).Inv s0 m reqs := by
  induction sched with
  | nil => intro σ h; exact h
  | cons tid rest ih =>
    intro σ h
    exact ih (h.step hz tid)

theorem sum_map_set_of_get {α : Type} (f : α → Nat) (b : α) :
    ∀ (l : List α) (i : Nat) (a : α), l[i]? = some a →
      ((l.set i b).map f).sum + f a = (l.map f).sum + f b := by
  intro l
  induction l with
  | nil => intro i a h; simp at h
  | cons x xs ih =>
    intro i a h
    cases i with
    | zero =>
      simp only [List.getElem?_cons_zero, Option.some.injEq] at h
      subst h
      simp only [List.set_cons_zero, List.map_cons, List.sum_cons]
      omega
    | succ k =>
      simp only [List.getElem?_cons_succ] at h
      have := ih k a h
      simp only [List.set_cons_succ, List.map_cons, List.sum_cons]
      omega

theorem exists_pos_of_sum_pos {α : Type} (f : α → Nat) :
    ∀ (l : List α), 0 < (l.map f).sum → ∃ a ∈ l, 0 < f a := by
  intro l
  induction l with
  | nil => intro h; simp at h
  | cons x xs ih =>
    intro h
    simp only [List.map_cons, List.sum_cons] at h
    by_cases hx : 0 < f x
    · exact ⟨x, List.mem_cons_self _ _, hx⟩
    · have : 0 < (xs.map f).sum := by omega
      obtain ⟨a, ha, hpos⟩ := ih this
      exact ⟨a, List.mem_cons_of_mem _ ha, hpos⟩

theorem sum_map_eq_zero {α : Type} (f : α → Nat) :
    ∀ (l : List α), (l.map f).sum = 0 → ∀ a ∈ l, f a = 0 := by
  intro l h a ha
  by_contra hne
  have hpos : 0 < f a := Nat.pos_of_ne_zero hne
  have : f a ≤ (l.map f).sum := List.single_le_sum (by simp) _ (List.mem_map.mpr ⟨a, ha, rfl⟩)
  omega

theorem Reader.step_remaining (s s1 : Server) (torn installed : Bool) (t t1 : Reader)
    (hstep : t.step s torn installed = some (s1, t1)) :
    t1.pc.remaining < t.pc.remaining := by
  unfold Reader.step at hstep
  cases hpc : t.pc <;> rw [hpc] at hstep <;> simp only at hstep
  · split at hstep <;> cases hstep <;> simp [ReaderPC.remaining]
  · split at hstep
    · cases hstep
    · cases hstep
      simp [ReaderPC.remaining]
  · split at hstep
    · cases hstep
      simp [ReaderPC.remaining]
    · split at hstep <;> cases hstep <;> simp [ReaderPC.remaining]
  · split at hstep
    · cases hstep
      simp [ReaderPC.remaining]
    · split at hstep <;> cases hstep <;> simp [ReaderPC.remaining]
  · cases hstep
    simp [ReaderPC.remaining]
  · cases hstep
    simp [ReaderPC.remaining]
  · cases hstep

theorem Sys.stepRequest_remaining (σ σ1 : Sys) (i : Nat)
    (hstep : σ.stepRequest i = some σ1) : σ1.remaining < σ.remaining := by
  unfold Sys.stepRequest at hstep
  cases hget : σ.readers[i]? with
  | none => simp [hget] at hstep
  | some t =>
    simp only [hget] at hstep
    cases hst : t.step σ.server σ.torn (decide (σ.installer = WriterPC.done)) with
    | none => simp [hst] at hstep
    | some p =>
      obtain ⟨s1, t1⟩ := p
      simp only [hst, Option.some.injEq] at hstep
      subst hstep
      have hlt := Reader.step_remaining _ _ _ _ _ _ hst
      have hsum := sum_map_set_of_get (fun t => t.pc.remaining) t1 σ.readers i t hget
      simp only [Sys.remaining]
      simp only at hsum
      omega

theorem Sys.stepInstaller_remaining (σ σ1 : Sys)
    (hstep : σ.stepInstaller = some σ1) : σ1.remaining < σ.remaining := by
  unfold Sys.stepInstaller at hstep
  cases hi : σ.installer <;> rw [hi] at hstep <;> simp only at hstep
  · split at hstep
    · cases hstep
    · cases hstep
      simp [Sys.remaining, hi, WriterPC.remaining]
  · cases hstep
    simp [Sys.remaining, hi, WriterPC.remaining]
  · cases hstep
    simp [Sys.remaining, hi, WriterPC.remaining]
  · cases hstep
    simp [Sys.remaining, hi, WriterPC.remaining]
  · cases hstep

theorem Reader.step_of_holds (s : Server) (torn installed : Bool) (t : Reader)
    (hh : t.pc.holds = true) : ∃ p, t.step s torn installed = some p := by
  unfold Reader.step
  cases hpc : t.pc <;> rw [hpc] at hh <;> simp [ReaderPC.holds] at hh ⊢
  · split
    · exact ⟨_, _, rfl⟩
    · split <;> exact ⟨_, _, rfl⟩
  · split
    · exact ⟨_, _, rfl⟩
    · split <;> exact ⟨_, _, rfl⟩

theorem Sys.Inv.progress {s0 : Server} {m : Option Handler}
    {reqs : List (ResponseWriter × Request)} {σ : Sys} (hI : σ.Inv s0 m reqs)
    (hpos : 0 < σ.remaining) : ∃ tid, (σ.step tid).remaining < σ.remaining := by
  by_cases hA : ∃ t ∈ σ.readers, t.pc.holds = true
  · obtain ⟨t, ht, hh⟩ := hA
    obtain ⟨i, hi⟩ := List.getElem?_of_mem ht
    obtain ⟨p, hp⟩ := Reader.step_of_holds σ.server σ.torn
      (decide (σ.installer = WriterPC.done)) t hh
    have hstep : σ.stepRequest i
        = some { σ with server := p.1, readers := σ.readers.set i p.2 } := by
      simp [Sys.stepRequest, hi, hp]
    refine ⟨Tid.request i, ?_⟩
    simp only [Sys.step, hstep, Option.getD_some]
    exact Sys.stepRequest_remaining σ _ i hstep
  · have hnone : ∀ t ∈ σ.readers, t.pc.holds = false := by
      intro t ht
      cases hh : t.pc.holds with
      | false => rfl
      | true => exact absurd ⟨t, ht, hh⟩ hA
    have hzero : σ.server.lck.readers = 0 := by
      rw [hI.count, List.countP_eq_zero]
      intro t ht
      simp [hnone t ht]
    have hwf := hI.wflag
    by_cases hd : σ.installer = WriterPC.done
    · rw [hd] at hwf
      have hw : σ.server.lck.writer = false := by simpa [WriterPC.holds] using hwf
      have hsum : 0 < (σ.readers.map (fun t => t.pc.remaining)).sum := by
        simp only [Sys.remaining, hd, WriterPC.remaining] at hpos
        omega
      obtain ⟨t, ht, htpos⟩ := exists_pos_of_sum_pos _ _ hsum
      obtain ⟨i, hi⟩ := List.getElem?_of_mem ht
      have hh := hnone t ht
      have hex : ∃ p, t.step σ.server σ.torn (decide (σ.installer = WriterPC.done))
          = some p := by
        unfold Reader.step
        cases hpc : t.pc <;> rw [hpc] at hh htpos <;>
          simp [ReaderPC.holds, ReaderPC.remaining] at hh htpos ⊢
        · split <;> exact ⟨_, _, rfl⟩
        · simp [RWMutex.RLock, hw]
      obtain ⟨p, hp⟩ := hex
      have hstep : σ.stepRequest i
          = some { σ with server := p.1, readers := σ.readers.set i p.2 } := by
        simp [Sys.stepRequest, hi, hp]
      refine ⟨Tid.request i, ?_⟩
      simp only [Sys.step, hstep, Option.getD_some]
      exact Sys.stepRequest_remaining σ _ i hstep
    · have hex : ∃ σ1, σ.stepInstaller = some σ1 := by
        unfold Sys.stepInstaller
        cases hi : σ.installer with
        | atLock =>
          rw [hi] at hwf
          have hw : σ.server.lck.writer = false := by simpa [WriterPC.holds] using hwf
          simp [RWMutex.Lock, hw, hzero]
        | atStore => exact ⟨_, rfl⟩
        | midStore => exact ⟨_, rfl⟩
        | atUnlock => exact ⟨_, rfl⟩
        | done => exact absurd hi hd
      obtain ⟨σ1, hstep⟩ := hex
      refine ⟨Tid.installer, ?_⟩
      simp only [Sys.step, hstep, Option.getD_some]
      exact Sys.stepInstaller_remaining σ σ1 hstep

theorem Sys.Inv.finish {s0 : Server} {m : Option Handler}
    {reqs : List (ResponseWriter × Request)} (hz : s0.lck = RWMutex.zero) :
    ∀ (n : Nat) (σ : Sys), σ.Inv s0 m reqs → σ.remaining ≤ n →
      ∃ more : List Tid, (σ.run more).remaining = 0 := by
  intro n
  induction n with
  | zero =>
    intro σ _ hle
    exact ⟨[], by simpa [Sys.run] using hle⟩
  | succ k ih =>
    intro σ hI hle
    by_cases hpos : 0 < σ.remaining
    · obtain ⟨tid, hlt⟩ := hI.progress hpos
      obtain ⟨more, hmore⟩ := ih (σ.step tid) (hI.step hz tid) (by omega)
      exact ⟨tid :: more, by simpa [Sys.run] using hmore⟩
    · exact ⟨[], by simp only [Sys.run, List.foldl_nil]; omega⟩

theorem Sys.remaining_eq_zero (σ : Sys) (h : σ.remaining = 0) :
    σ.installer = WriterPC.done ∧ ∀ t ∈ σ.readers, t.pc = ReaderPC.done := by
  unfold Sys.remaining at h
  have h1 : σ.installer.remaining = 0 := by omega
  have h2 : (σ.readers.map (fun t => t.pc.remaining)).sum = 0 := by omega
  constructor
  · cases hi : σ.installer <;> rw [hi] at h1 <;> simp [WriterPC.remaining] at h1 ⊢
  · intro t ht
    have := sum_map_eq_zero _ _ h2 t ht
    cases hpc : t.pc <;> rw [hpc] at this <;> simp [ReaderPC.remaining] at this ⊢

/-- C8: start from a server at rest with no handler, any number of request
goroutines for paths other than the health check path, and one goroutine
running `serveWith(h)`, and let them advance in any order, one statement at a
time, the store of the field being two separate word writes.  Then in every
state that is reached no request goroutine has read the field while torn;
what a goroutine has written is nothing yet, or the complete 503 not-ready
response, or the complete response of h; a goroutine that is done ended with
one of these two responses; and a goroutine that began after `serveWith` had
returned ended with the response of h.  Moreover the goroutines never get
stuck: every schedule can be continued so that the install and all requests
have returned. -/
theorem install_is_atomic_for_requests (s : Server) (h : Handler)
    (reqs : List (ResponseWriter × Request)) (sched : List Tid)
    (hrest : s.lck = RWMutex.zero) (habsent : s.mux = none)
    (hpaths : ∀ p ∈ reqs, p.2.URL.Path ≠ s.cfg.HealthCheckURI) :
    ((Sys.init s (some h) reqs).run sched).readers.map (fun t => (t.w0, t.r)) = reqs ∧
    (∃ more : List Tid,
      ((Sys.init s (some h) reqs).run (sched ++ more)).installer = WriterPC.done ∧
      ∀ t ∈ ((Sys.init s (some h) reqs).run (sched ++ more)).readers,
        t.pc = ReaderPC.done) ∧
    ∀ t ∈ ((Sys.init s (some h) reqs).run sched).readers,
      t.sawTorn = false ∧
      (t.response = (t.w0, Exit.returned) ∨
        t.response = (httpError t.w0 "Gitgrep is not ready." 503, Exit.returned) ∨
        t.response = ((h.ServeHTTP t.w0 t.r).w, Exit.ofPanic (h.ServeHTTP t.w0 t.r).panic)) ∧
      (t.pc = ReaderPC.done →
        t.response = (httpError t.w0 "Gitgrep is not ready." 503, Exit.returned) ∨
        t.response = ((h.ServeHTTP t.w0 t.r).w, Exit.ofPanic (h.ServeHTTP t.w0 t.r).panic)) ∧
      (t.afterInstall = true → t.pc = ReaderPC.done →
        t.response = ((h.ServeHTTP t.w0 t.r).w, Exit.ofPanic (h.ServeHTTP t.w0 t.r).panic)) := by
  have hI := Sys.Inv.run hrest sched (Sys.Inv.init s (some h) reqs hrest)
  refine ⟨hI.reqs, ?_, ?_⟩
  · obtain ⟨more, hmore⟩ := Sys.Inv.finish hrest _ _ hI (Nat.le_refl _)
    refine ⟨more, ?_⟩
    have hrun : (Sys.init s (some h) reqs).run (sched ++ more)
        = ((Sys.init s (some h) reqs).run sched).run more := by
      simp [Sys.run, List.foldl_append]
    rw [hrun]
    exact Sys.remaining_eq_zero _ hmore
  intro t ht
  have hp : t.r.URL.Path ≠ s.cfg.HealthCheckURI := by
    have hmem : (t.w0, t.r) ∈ reqs := by
      rw [← hI.reqs]
      exact List.mem_map.mpr ⟨t, ht, rfl⟩
    exact hpaths _ hmem
  have hold := Reader.responseWith_none s t hrest hp
  have hnew := Reader.responseWith_some s h t hrest hp
  obtain ⟨hsaw, -, hat⟩ := hI.readers t ht
  have settled : t.Settled s (some h) →
      (t.response = (httpError t.w0 "Gitgrep is not ready." 503, Exit.returned) ∨
        t.response = ((h.ServeHTTP t.w0 t.r).w, Exit.ofPanic (h.ServeHTTP t.w0 t.r).panic)) ∧
      (t.afterInstall = true →
        t.response = ((h.ServeHTTP t.w0 t.r).w, Exit.ofPanic (h.ServeHTTP t.w0 t.r).panic)) := by
    rintro ⟨h1, h2⟩
    rw [habsent, hold, hnew] at h1
    rw [hnew] at h2
    exact ⟨h1, h2⟩
  have untouched : t.Untouched → t.response = (t.w0, Exit.returned) := by
    rintro ⟨h1, h2⟩
    simp [Reader.response, h1, h2]
  refine ⟨hsaw, ?_⟩
  cases hpc : t.pc <;> rw [hpc] at hat
  · exact ⟨Or.inl (untouched hat.1), by simp, by simp⟩
  · exact ⟨Or.inl (untouched hat.1), by simp, by simp⟩
  · exact ⟨Or.inl (untouched hat.1), by simp, by simp⟩
  · exact ⟨Or.inl (untouched hat.1), by simp, by simp⟩
  · exact ⟨Or.inl (untouched hat.1), by simp, by simp⟩
  · exact ⟨Or.inr (settled hat).1, by simp, by simp⟩
  · exact ⟨Or.inr (settled hat).1, fun _ => (settled hat).1, fun ha _ => (settled hat).2 ha⟩

/-- Witness of C8: three search requests against one install under the
example schedule. -/
theorem install_is_atomic_for_requests_witness :
    exampleServer.lck = RWMutex.zero ∧ exampleServer.mux = none ∧
    (∀ p ∈ exampleRequests, p.2.URL.Path ≠ exampleServer.cfg.HealthCheckURI) ∧
    ∀ t ∈ ((Sys.init exampleServer (some exampleHandler) exampleRequests).run
        exampleSchedule).readers,
      t.sawTorn = false :=
  ⟨rfl, rfl, by decide,
    fun t ht => ((install_is_atomic_for_requests exampleServer exampleHandler exampleRequests
      exampleSchedule rfl rfl (by decide)).2.2 t ht).1⟩

set_option maxRecDepth 100000 in
/-- The example schedule runs every goroutine to its end: request 0 gets the
503 response, requests 1 and 2 get the response of the handler, and only
request 2 began after the install had returned. -/
theorem exampleSchedule_outcome :
    ((Sys.init exampleServer (some exampleHandler) exampleRequests).run
        exampleSchedule).installer = WriterPC.done ∧
    (((Sys.init exampleServer (some exampleHandler) exampleRequests).run
        exampleSchedule).readers.map
        (fun t => (t.pc, t.w.status, t.w.body, t.afterInstall)))
      = [(ReaderPC.done, 503, "Gitgrep is not ready.\n", false),
         (ReaderPC.done, 200, "results", false),
         (ReaderPC.done, 200, "results", true)] := by
  constructor
  · rfl
  · decide

end Web
